import Mathlib

/-!
# x5gon-platform: storage bolt, video preprocessing topology, recommender, database script, materials route

Shallow embedding of

* `src/server/preproc/pipelines/bolts/postgresql-storage.js` (class `PostgresqlStorage`),
* `src/server/preproc/pipelines/preprocessing-video.js` (the topology object),
* `src/lib/x5recommend.js` (`_loadBase` and `recommendContent`),
* `src/load/create-postgres-database.js` (`prepareTables` and `updateTables`),
* `src/services/platform/routes/v2/oer_materials.js` (`oerMaterialQuery` and the paging
  of the list handler).

The bolt talks to two things that live outside these files: the connection object
returned by `lib/postgresQL` and the callbacks handed in by the topology runner.
Every call the bolt makes on them is recorded as an `Event`, in program order; the
behaviour of the connection is a parameter (`PgLib`).  A completion callback that the
connection invokes is run to its end before the next event, so a call of `receive`
together with the completions of its insert is one step of the model.
-/

namespace X5gon

/-! ## Values -/

/-- A material (envelope) object: the `materialUrl` property (`none` when it is
undefined) and the remaining properties. -/
structure Material where
  materialUrl : Option String
  props : List (String × String)
  deriving DecidableEq, Repr

/-- An error object handed to a completion callback; `message` is its `.message`. -/
structure PgError where
  message : Option String
  deriving DecidableEq, Repr

/-- The object `config.pg` the connection is created from. -/
abbrev PgConfig := List (String × String)

/-- The connection object `require(lib/postgresQL)(config.pg)`. -/
structure PgConn where
  config : PgConfig
  deriving DecidableEq, Repr

/-- The arguments `(error, result)` of one invocation of the completion callback of
`insert`; `error = none` is a falsy first argument. -/
structure Completion where
  error : Option PgError
  result : List Material
  deriving DecidableEq, Repr

/-- Behaviour of the connection object.  `insert material table db` gives the store
after the call and the invocations of the completion callback it makes, in order. -/
structure PgLib (σ : Type) where
  insert : Material → Option String → σ → σ × List Completion
  close : σ → σ

/-- An exception thrown by the JavaScript code. -/
inductive JsError where
  | typeError (text : String)
  deriving DecidableEq, Repr

/-- What the bolt does to the outside world. -/
inductive Event where
  | pgCreate (config : PgConfig)
  | pgInsert (material : Material) (table : Option String)
  | pgClose
  | consoleWarn (error : Option String) (materialUrl : Option String)
  | consoleLog (text : String) (materialUrl : Option String)
  | callback (error : Option PgError)
  deriving DecidableEq, Repr

/-- The `config` argument of `init`: the three properties the bolt reads. -/
structure BoltConfig where
  onEmit : Option String
  pg : PgConfig
  postgres_table : Option String
  deriving DecidableEq, Repr

/-! ## `PostgresqlStorage` -/

/-- The fields of a `PostgresqlStorage` instance; `none` is `null` or `undefined`. -/
structure PostgresqlStorage where
  _name : Option String
  _onEmit : Option String
  _context : Option String
  _prefix : Option String
  _pg : Option PgConn
  _postgresTable : Option String
  deriving DecidableEq, Repr

/-- Result of a method call that returned normally. -/
structure Outcome (σ : Type) where
  self : PostgresqlStorage
  db : σ
  trace : List Event

/-- `constructor()`: sets `_name`, `_onEmit`, `_context` to `null`. -/
def PostgresqlStorage.new : PostgresqlStorage :=
  { _name := none, _onEmit := none, _context := none,
    _prefix := none, _pg := none, _postgresTable := none }

/-- `init(name, config, context, callback)`. -/
def PostgresqlStorage.init {σ : Type} (self : PostgresqlStorage) (name : String)
    (config : BoltConfig) (context : Option String) (db : σ) : Outcome σ :=
  { self :=
      { self with
        _name := some name
        _context := context
        _onEmit := config.onEmit
        _prefix := some ("[PostgresqlStorage " ++ name ++ "]")
        _pg := some { config := config.pg }
        _postgresTable := config.postgres_table }
    db := db
    trace := [Event.pgCreate config.pg, Event.callback none] }

/-- `heartbeat()`: empty body. -/
def PostgresqlStorage.heartbeat {σ : Type} (self : PostgresqlStorage) (db : σ) : Outcome σ :=
  { self := self, db := db, trace := [] }

/-- `shutdown(callback)`: `this._pg.close()` then `callback()`. -/
def PostgresqlStorage.shutdown {σ : Type} (pg : PgLib σ) (self : PostgresqlStorage)
    (db : σ) : Except JsError (Outcome σ) :=
  match self._pg with
  | none => .error (.typeError "Cannot read property close of undefined")
  | some _ => .ok { self := self, db := pg.close db, trace := [Event.pgClose, Event.callback none] }

/-- The arrow function `(error, result) => ...` that `receive` hands to `insert`. -/
def onInsertDone (material : Material) (c : Completion) : List Event :=
  match c.error with
  | some error => [Event.consoleWarn error.message material.materialUrl, Event.callback none]
  | none =>
    [Event.consoleLog "material inserted into oer_material database" material.materialUrl,
     Event.callback none]

/-- `receive(material, stream_id, callback)`. -/
def PostgresqlStorage.receive {σ : Type} (pg : PgLib σ) (self : PostgresqlStorage)
    (material : Material) (_stream_id : Option String) (db : σ) : Except JsError (Outcome σ) :=
  match self._pg with
  | none => .error (.typeError "Cannot read property insert of undefined")
  | some _ =>
    let r := pg.insert material self._postgresTable db
    .ok { self := self, db := r.1,
          trace := Event.pgInsert material self._postgresTable ::
            (r.2.map (onInsertDone material)).flatten }

/-! ## Reading a trace -/

/-- The error arguments of the invocations of the bolt's callback (the ack). -/
def acks : List Event → List (Option PgError)
  | [] => []
  | Event.callback e :: es => e :: acks es
  | _ :: es => acks es

/-- The `(material, table)` arguments of the calls of `insert`. -/
def inserts : List Event → List (Material × Option String)
  | [] => []
  | Event.pgInsert m t :: es => (m, t) :: inserts es
  | _ :: es => inserts es

/-- The warnings written with `console.warn`. -/
def warnings : List Event → List (Option String × Option String)
  | [] => []
  | Event.consoleWarn e u :: es => (e, u) :: warnings es
  | _ :: es => warnings es

/-- Trace of a call, empty when the call threw. -/
def traceOf {σ : Type} : Except JsError (Outcome σ) → List Event
  | .ok o => o.trace
  | .error _ => []

/-- Whether a call threw. -/
def raised {σ : Type} : Except JsError (Outcome σ) → Bool
  | .ok _ => false
  | .error _ => true

/-- The calls the topology runner may make on a bolt after `init`. -/
inductive Op where
  | heartbeat
  | receive (material : Material) (stream_id : Option String)
  | shutdown
  deriving DecidableEq, Repr

/-- One call on the bolt. -/
def step {σ : Type} (pg : PgLib σ) (self : PostgresqlStorage) (db : σ) :
    Op → Except JsError (Outcome σ)
  | Op.heartbeat => .ok (self.heartbeat db)
  | Op.receive m sid => self.receive pg m sid db
  | Op.shutdown => self.shutdown pg db

/-- A sequence of calls, one after the other; stops at the first call that throws.
The trace of the result is the concatenation of the traces of the calls. -/
def run {σ : Type} (pg : PgLib σ) (self : PostgresqlStorage) (db : σ) :
    List Op → Except JsError (Outcome σ)
  | [] => .ok { self := self, db := db, trace := [] }
  | op :: ops =>
    match step pg self db op with
    | .error e => .error e
    | .ok o =>
      match run pg o.self o.db ops with
      | .error e => .error e
      | .ok o2 => .ok { o2 with trace := o.trace ++ o2.trace }

/-- The materials handed to `receive` in a sequence of calls, in order. -/
def received : List Op → List Material
  | [] => []
  | Op.receive m _ :: ops => m :: received ops
  | _ :: ops => received ops

/-! ## The video preprocessing topology -/

/-- A value inside an `init` object: a string literal, or a property of the object
loaded from `config/config` (which is not part of the topology file). -/
inductive InitVal where
  | str (s : String)
  | cfg (path : List String)
  deriving DecidableEq, Repr

/-- One element of a bolt's `inputs` array; `stream_id = none` is the default stream. -/
structure Input where
  source : String
  stream_id : Option String
  deriving DecidableEq, Repr

/-- An element of the `spouts` array. -/
structure Spout where
  name : String
  type : String
  working_dir : String
  cmd : String
  init : List (String × InitVal)
  deriving DecidableEq, Repr

/-- An element of the `bolts` array. -/
structure Bolt where
  name : String
  type : String
  working_dir : String
  cmd : String
  inputs : List Input
  init : List (String × InitVal)
  deriving DecidableEq, Repr

/-- The exported topology object. -/
structure Topology where
  heartbeat : Nat
  pass_binary_messages : Bool
  spouts : List Spout
  bolts : List Bolt
  variables_ : List (String × String)
  deriving DecidableEq, Repr

/-- The object exported by `preprocessing-video.js`. -/
def preprocessingVideo : Topology :=
  { heartbeat := 2000
    pass_binary_messages := true
    spouts :=
      [ { name := "video-input", type := "inproc", working_dir := "./spouts",
          cmd := "kafka-spout.js",
          init := [("kafka_host", .cfg ["kafka", "host"]), ("topic", .str "video-topic")] } ]
    bolts :=
      [ { name := "material-format", type := "inproc", working_dir := "./bolts",
          cmd := "material-format.js",
          inputs := [{ source := "video-input", stream_id := none }],
          init := [] },
        { name := "video-content-extraction", type := "inproc", working_dir := "./bolts",
          cmd := "extraction-ttp.js",
          inputs := [{ source := "material-format", stream_id := none }],
          init := [("user", .cfg ["ttp", "user"]), ("token", .cfg ["ttp", "token"])] },
        { name := "wikification", type := "inproc", working_dir := "./bolts",
          cmd := "extraction-wikipedia.js",
          inputs := [{ source := "video-content-extraction", stream_id := none }],
          init := [("userKey", .cfg ["preproc", "wikifier", "userKey"]),
                   ("wikifierUrl", .cfg ["preproc", "wikifier", "wikifierUrl"])] },
        { name := "material-validator", type := "inproc", working_dir := "./bolts",
          cmd := "material-validator.js",
          inputs := [{ source := "wikification", stream_id := none }],
          init := [] },
        { name := "postgresql-storage-production", type := "inproc", working_dir := "./bolts",
          cmd := "postgresql-storage.js",
          inputs := [{ source := "material-validator", stream_id := none }],
          init := [("postgres_table", .str "oer_materials"), ("pg", .cfg ["pg"])] },
        { name := "postgresql-storage-development", type := "inproc", working_dir := "./bolts",
          cmd := "postgresql-storage.js",
          inputs := [{ source := "material-validator", stream_id := none }],
          init := [("postgres_table", .str "oer_materials_dev"), ("pg", .cfg ["pg"])] },
        { name := "postgresql-storage-partial", type := "inproc", working_dir := "./bolts",
          cmd := "postgresql-storage.js",
          inputs :=
            [ { source := "material-format", stream_id := some "stream_partial" },
              { source := "video-content-extraction", stream_id := some "stream_partial" },
              { source := "wikification", stream_id := some "stream_partial" },
              { source := "material-validator", stream_id := some "stream_partial" } ],
          init := [("postgres_table", .str "oer_materials_partial"), ("pg", .cfg ["pg"])] } ]
    variables_ := [] }

/-- The bolts of the topology that carry the given name. -/
def Topology.boltsNamed (t : Topology) (name : String) : List Bolt :=
  t.bolts.filter (fun b => b.name == name)

/-- The bindings `(source, consumer)` declared on stream `stream`, in declaration order. -/
def Topology.bindings (t : Topology) (stream : Option String) : List (String × String) :=
  (t.bolts.map (fun b =>
    (b.inputs.filter (fun i => i.stream_id == stream)).map (fun i => (i.source, b.name)))).flatten

/-- The names of the bolts bound to stream `stream` of stage `source`. -/
def Topology.consumers (t : Topology) (source : String) (stream : Option String) : List String :=
  ((t.bindings stream).filter (fun p => p.1 == source)).map (fun p => p.2)

/-- The string literal stored under `key` in an `init` object. -/
def initStr (init : List (String × InitVal)) (key : String) : Option String :=
  match init.lookup key with
  | some (.str s) => some s
  | _ => none

/-- The `config` object a bolt is initialised with: its `init` object, in which the
reference `config.pg` stands for `pgCfg`, and the runner's `onEmit` handler. -/
def Bolt.initConfig (b : Bolt) (pgCfg : PgConfig) (onEmit : Option String) : BoltConfig :=
  { onEmit := onEmit
    pg := match b.init.lookup "pg" with
          | some (.cfg ["pg"]) => pgCfg
          | _ => []
    postgres_table := initStr b.init "postgres_table" }

/-- The sink instance created for bolt `b`: `create()` followed by `init`. -/
def Bolt.sink (b : Bolt) (pgCfg : PgConfig) (onEmit context : Option String) :
    PostgresqlStorage :=
  (PostgresqlStorage.new.init b.name (b.initConfig pgCfg onEmit) context ()).self

/-! ## Stores used to exercise the bolt -/

/-- A connection whose every `insert` fails: it changes nothing and calls back once
with an error carrying `text`. -/
def failingPg (text : String) : PgLib Unit :=
  { insert := fun _ _ db => (db, [{ error := some { message := some text }, result := [] }])
    close := fun db => db }

/-- A connection whose every `insert` calls back once without error. -/
def succeedingPg : PgLib Unit :=
  { insert := fun m _ db => (db, [{ error := none, result := [m] }])
    close := fun db => db }

/-- A material used in the examples. -/
def sampleMaterial : Material :=
  { materialUrl := some "http://x.edu/v1", props := [("title", "Intro"), ("description", "")] }

/-- A sink initialised by hand, writing to `oer_materials`. -/
def sampleSink : PostgresqlStorage :=
  (PostgresqlStorage.new.init "postgresql-storage-production"
    { onEmit := none, pg := [], postgres_table := some "oer_materials" } none ()).self

/-- A connection that remembers whether `close` was called (the store is that flag): an
insert on the open connection completes once without error, an insert on the closed
connection completes once with an error and writes nothing. -/
def closingPg : PgLib Bool :=
  { insert := fun m _ closed =>
      (closed,
       [if closed then { error := some { message := some "connection closed" }, result := [] }
        else { error := none, result := [m] }])
    close := fun _ => true }

/-! ## The store of section 4.3 -/

/-- The tables of the store: the rows of each table, by table name. -/
abbrev Db := Option String → List Material

/-- What an upsert does with a material whose URL is already in the table. -/
inductive OnDuplicate where
  | update
  | skip
  deriving DecidableEq, Repr

/-- Modelled from the spec: the SQL behind `insert` (`lib/postgresQL`) is not among the
sources.  Section 4.3: the sink "performs an idempotent upsert keyed by material URL
(duplicate insert updates or is silently skipped, never raises)".  The first row with
the URL of `m` is replaced by `m` (update) or kept (skip); without one, `m` is added. -/
def upsertRow (d : OnDuplicate) (m : Material) : List Material → List Material
  | [] => [m]
  | r :: rs =>
    if r.materialUrl = m.materialUrl then
      match d with
      | OnDuplicate.update => m :: rs
      | OnDuplicate.skip => r :: rs
    else r :: upsertRow d m rs

/-- Modelled from the spec: the connection of `lib/postgresQL`, whose `insert` is the
upsert of section 4.3 on the named table; it completes once, without error. -/
def upsertPg (d : OnDuplicate) : PgLib Db :=
  { insert := fun m t db =>
      (fun t2 => if t2 = t then upsertRow d m (db t2) else db t2,
       [{ error := none, result := [m] }])
    close := fun db => db }

/-- The rows of a table that carry the given material URL. -/
def rowsWithUrl (db : Db) (table : Option String) (url : String) : List Material :=
  (db table).filter (fun r => r.materialUrl == some url)

/-- The store with no rows in any table. -/
def emptyDb : Db := fun _ => []

/-- The sample material as it arrives a second time, with another title. -/
def sampleMaterialAgain : Material :=
  { materialUrl := some "http://x.edu/v1", props := [("title", "Intro, revised")] }

/-- The three tables the storage bolts of the topology write to. -/
def storageTables : List (Option String) :=
  [some "oer_materials", some "oer_materials_dev", some "oer_materials_partial"]

/-! ## The binding graph -/

/-- All declared bindings `(source, stream, consumer)`, in declaration order. -/
def Topology.allBindings (t : Topology) : List (String × Option String × String) :=
  (t.bolts.map (fun b => b.inputs.map (fun i => (i.source, i.stream_id, b.name)))).flatten

/-- The pairs `(source, consumer)` bound on some stream. -/
def Topology.edges (t : Topology) : List (String × String) :=
  t.allBindings.map (fun x => (x.1, x.2.2))

/-- The edge relation of the binding graph: `b` declares an input whose source is `a`. -/
def Topology.edge (t : Topology) (a b : String) : Prop :=
  (a, b) ∈ t.edges

/-- The names of the declared stages: the spouts, then the bolts. -/
def Topology.stageNames (t : Topology) : List String :=
  t.spouts.map (fun s => s.name) ++ t.bolts.map (fun b => b.name)

/-- Position of a stage in the order of declaration. -/
def Topology.position (t : Topology) (name : String) : Nat :=
  t.stageNames.indexOf name

/-! ## `x5recommend` (`src/lib/x5recommend.js`)

The qminer base, the schema module, `path.normalize` and the nearest-neighbour model are
outside the file; they are parameters. -/

/-- The `params` object of the constructor; `mode = none` is an undefined mode. -/
structure RecommendParams where
  mode : Option String
  path : String
  deriving DecidableEq, Repr

/-- The module `schemas/base/schema`, as loaded by `require`. -/
structure Schema where
  stores : List String
  deriving DecidableEq, Repr

/-- The object `baseParams` handed to `new qm.Base(...)`; `none` is a property that was
not set. -/
structure BaseParams where
  dbPath : String
  indexCache : Nat
  storeCache : Nat
  mode : Option String
  schema : Option Schema
  deriving DecidableEq, Repr

/-- Result of `_loadBase`: the messages given to `logger.error`, and either the string
that was thrown or the `baseParams` the base was opened with. -/
structure LoadBaseOutcome where
  logged : List String
  result : Except String BaseParams

/-- Conversion of a property inside a template literal. -/
def jsString : Option String → String
  | some s => s
  | none => "undefined"

/-- The method `_loadBase()`, up to and including the call `new qm.Base(baseParams)`. -/
def x5recommend._loadBase (normalize : String → String) (schema : Schema)
    (params : RecommendParams) : LoadBaseOutcome :=
  let baseParams : BaseParams :=
    { dbPath := normalize params.path, indexCache := 10000, storeCache := 10000,
      mode := none, schema := none }
  if params.mode = some "create" ∨ params.mode = some "createClean" then
    { logged := [],
      result := .ok { baseParams with mode := params.mode, schema := some schema } }
  else if params.mode = some "open" then
    { logged := [], result := .ok { baseParams with mode := some "open" } }
  else if params.mode = some "readOnly" then
    { logged := [], result := .ok { baseParams with mode := some "openReadOnly" } }
  else
    let errorMessage := "Value of parameter 'mode' is not supported: " ++ jsString params.mode
    { logged := ["error [x5recommend._loadBase]: " ++ errorMessage],
      result := .error errorMessage }

/-- The argument `queryObject` of `recommendContent`; `none` is an absent property. -/
structure QueryObject where
  url : Option String
  title : Option String
  description : Option String
  deriving DecidableEq, Repr

/-- Truthiness of an optional string property: present and not the empty string. -/
def truthy : Option String → Bool
  | some s => s != ""
  | none => false

/-- The first argument of `contentNN.search`: the url string, or the query object. -/
inductive SearchQuery where
  | url (u : String)
  | object (q : QueryObject)
  deriving DecidableEq, Repr

/-- A record of the Content store as returned by the search. -/
structure ContentRecord where
  link : Option String
  title : Option String
  description : Option String
  provider : Option String
  others : List (String × String)
  deriving DecidableEq, Repr

/-- An element of the array returned by `recommendContent`. -/
structure Recommended (ω : Type) where
  weight : Option ω
  link : Option String
  title : Option String
  description : Option String
  provider : Option String
  deriving DecidableEq, Repr

/-- The value returned by `recommendContent`: the object `{ error }` or the array. -/
inductive Recommendations (ω : Type) where
  | error (error : String)
  | list (items : List (Recommended ω))
  deriving DecidableEq, Repr

/-- Result of a call of `recommendContent` that returned: the queries given to
`contentNN.search`, the messages given to `logger.error`, and the returned value. -/
structure RecommendOutcome (ω : Type) where
  searched : List SearchQuery
  logged : List String
  result : Recommendations ω

/-- The method `recommendContent(queryObject)`.  `contentNN` is the loaded model
(`none` when `_loadModels` has not run); its `search` gives the pair
`[materials, weights]`. -/
def x5recommend.recommendContent {ω : Type}
    (contentNN : Option (SearchQuery → List ContentRecord × List ω))
    (queryObject : QueryObject) : Except JsError (RecommendOutcome ω) :=
  if truthy queryObject.url || truthy queryObject.title || truthy queryObject.description then
    let query :=
      match queryObject.url with
      | some u => if u != "" then SearchQuery.url u else SearchQuery.object queryObject
      | none => SearchQuery.object queryObject
    match contentNN with
    | none => .error (.typeError "Cannot read property search of undefined")
    | some search =>
      let recommendations := search query
      .ok { searched := [query], logged := [],
            result := Recommendations.list
              (recommendations.1.enum.map (fun x =>
                { weight := recommendations.2.get? x.1
                  link := x.2.link
                  title := x.2.title
                  description := x.2.description
                  provider := x.2.provider })) }
  else
    let errorMessage := "Unsupported recommendation parameters"
    .ok { searched := [], logged := ["error [x5recommend.recommendContent]: " ++ errorMessage],
          result := Recommendations.error "Unsupported recommendation parameters" }

/-- The queries given to the search by a call, none when the call threw. -/
def searchCalls {ω : Type} : Except JsError (RecommendOutcome ω) → List SearchQuery
  | .ok o => o.searched
  | .error _ => []

/-- The four supported values of `params.mode`. -/
def supportedModes : List (Option String) :=
  [some "create", some "createClean", some "open", some "readOnly"]

/-- A query object with nothing to search by. -/
def emptyQuery : QueryObject :=
  { url := none, title := some "", description := none }

/-- A search that finds two records, with weights 9 and 4. -/
def sampleSearch : SearchQuery → List ContentRecord × List Nat :=
  fun _ =>
    ([ { link := some "http://x.edu/v1", title := some "Intro", description := none,
         provider := some "x.edu", others := [("language", "en")] },
       { link := some "http://x.edu/v2", title := some "Part two", description := some "more",
         provider := none, others := [] } ],
     [9, 4])

/-! ## `create-postgres-database.js` (`src/load/create-postgres-database.js`)

`pg.execute` is outside the file.  The statements handed to it are kept in the order of
the calls; whether a statement fails may depend on the statements executed before it. -/

/-- An element of `dbUpdates`: `{ version, update }`. -/
structure DbUpdate where
  version : Int
  update : String
  deriving DecidableEq, Repr

/-- A statement handed to `pg.execute`. -/
inductive Statement where
  /-- `tablesExistString` -/
  | tablesExist
  /-- `checkVersion` -/
  | checkVersion
  /-- a value of `dbCreates` -/
  | create (sql : String)
  /-- the `update` of an element of `dbUpdates` -/
  | update (sql : String)
  /-- `INSERT INTO database_version (version) VALUES (1)` -/
  | insertVersion
  /-- `UPDATE database_version SET version = version + 1 WHERE version = version` -/
  | setVersion (version : Int)
  deriving DecidableEq, Repr

/-- The error, if any, with which `pg.execute` completes a statement, given the
statements executed before it. -/
abbrev Executor := List Statement → Statement → Option PgError

/-- The variables `vCurrent` of `updateTables` and the statements executed so far. -/
structure UpdateState where
  vCurrent : Int
  executed : List Statement
  deriving DecidableEq, Repr

/-- Result of `updateTables`: the final `vCurrent`, the statements executed, and the error
the promise was rejected with (`none`: it resolved). -/
structure UpdateOutcome where
  vCurrent : Int
  executed : List Statement
  rejected : Option PgError
  deriving DecidableEq, Repr

/-- The query built by `updateDatabaseVersion(_version, callback)`. -/
def versionStatement (version : Int) : Statement :=
  if version = 0 then Statement.insertVersion else Statement.setVersion version

/-- `updateDatabaseVersion(_version, callback)`: executes the version statement; gives the
statements executed and the error handed to `callback`. -/
def updateDatabaseVersion (execute : Executor) (executed : List Statement) (version : Int) :
    List Statement × Option PgError :=
  (executed ++ [versionStatement version], execute executed (versionStatement version))

/-- `updateDatabaseTables(_version, _sql, callback)`: the state afterwards and the error
handed to `callback`. -/
def updateDatabaseTables (execute : Executor) (vGoal : Int) (st : UpdateState)
    (_version : Int) (_sql : String) : UpdateState × Option PgError :=
  if st.vCurrent < _version ∧ _version ≤ vGoal then
    if _sql = "" then
      let r := updateDatabaseVersion execute st.executed st.vCurrent
      match r.2 with
      | some error => ({ st with executed := r.1 }, some error)
      | none => ({ vCurrent := st.vCurrent + 1, executed := r.1 }, none)
    else
      match execute st.executed (Statement.update _sql) with
      | some error => ({ st with executed := st.executed ++ [Statement.update _sql] }, some error)
      | none =>
        let r := updateDatabaseVersion execute (st.executed ++ [Statement.update _sql]) st.vCurrent
        match r.2 with
        | some xerror => ({ st with executed := r.1 }, some xerror)
        | none => ({ vCurrent := st.vCurrent + 1, executed := r.1 }, none)
  else (st, none)

/-- `async.eachSeries(dbUpdates, ...)`: one update after the other, stopping at the first
error. -/
def eachSeriesUpdates (execute : Executor) (vGoal : Int) :
    UpdateState → List DbUpdate → UpdateState × Option PgError
  | st, [] => (st, none)
  | st, dbUpdate :: rest =>
    match updateDatabaseTables execute vGoal st dbUpdate.version dbUpdate.update with
    | (st2, some error) => (st2, some error)
    | (st2, none) => eachSeriesUpdates execute vGoal st2 rest

/-- `updateTables()`, with `vGoal = parseInt(pgVersion)` and the outcome of the
`checkVersion` query (an error, or the `version` of each row). -/
def updateTables (execute : Executor) (dbUpdates : List DbUpdate) (vGoal : Int)
    (stored : Except PgError (List Int)) : UpdateOutcome :=
  match stored with
  | .error error => { vCurrent := 0, executed := [Statement.checkVersion], rejected := some error }
  | .ok result =>
    let vCurrent := if result.length > 0 then result.foldl (fun prev curr => max prev curr) 0 else 0
    let r := eachSeriesUpdates execute vGoal
      { vCurrent := vCurrent, executed := [Statement.checkVersion] } dbUpdates
    { vCurrent := r.1.vCurrent, executed := r.1.executed, rejected := r.2 }

/-- The versions of the list are `k + 1`, `k + 2`, ... in this order. -/
def consecutiveFrom (k : Int) : List DbUpdate → Prop
  | [] => True
  | u :: us => u.version = k + 1 ∧ consecutiveFrom (k + 1) us

/-- The statements that applying one update consists of: its SQL unless empty, then the
statement that raises the stored version from `version - 1` to `version`. -/
def statementsFor (u : DbUpdate) : List Statement :=
  (if u.update = "" then [] else [Statement.update u.update]) ++
    [versionStatement (u.version - 1)]

/-- Result of `prepareTables`: the statements executed and the error the promise was
rejected with (`none`: it resolved). -/
structure PrepareOutcome where
  executed : List Statement
  rejected : Option PgError
  deriving DecidableEq, Repr

/-- `async.eachSeries(tableNames, ...)`: one create statement after the other, stopping
at the first error. -/
def eachSeriesCreates (execute : Executor) :
    List Statement → List String → List Statement × Option PgError
  | executed, [] => (executed, none)
  | executed, sqlStatement :: rest =>
    match execute executed (Statement.create sqlStatement) with
    | some xerror => (executed ++ [Statement.create sqlStatement], some xerror)
    | none => eachSeriesCreates execute (executed ++ [Statement.create sqlStatement]) rest

/-- `prepareTables()`.  `dbCreates` is the object as the list of its entries in key order
(keys are distinct); `existing` is the outcome of the `tablesExistString` query (an error,
or the `table_name` of each row). -/
def prepareTables (execute : Executor) (dbCreates : List (String × String))
    (existing : Except PgError (List String)) : PrepareOutcome :=
  match existing with
  | .error error => { executed := [Statement.tablesExist], rejected := some error }
  | .ok result =>
    let remaining := result.foldl
      (fun creates tableName => creates.filter (fun kv => kv.1 != tableName)) dbCreates
    let r := eachSeriesCreates execute [Statement.tablesExist] (remaining.map (fun kv => kv.2))
    { executed := r.1, rejected := r.2 }

/-- Statements handed to `pg.execute` one after the other, stopping at the first one that
fails: the statements executed (after `executed`) and the error of the failing one. -/
def runStatements (execute : Executor) :
    List Statement → List Statement → List Statement × Option PgError
  | executed, [] => (executed, none)
  | executed, st :: rest =>
    match execute executed st with
    | some error => (executed ++ [st], some error)
    | none => runStatements execute (executed ++ [st]) rest

/-- The updates whose version lies in `(v0, min(vGoal, n)]`, `n` the number of updates,
in the order of `dbUpdates`. -/
def appliedUpdates (v0 vGoal : Int) (dbUpdates : List DbUpdate) : List DbUpdate :=
  dbUpdates.filter (fun u =>
    decide (v0 < u.version ∧ u.version ≤ min vGoal (dbUpdates.length : Int)))

/-- An executor that fails, with the given message, on one statement only. -/
def failsOn (bad : Statement) (text : String) : Executor :=
  fun _ st => if st = bad then some { message := some text } else none

/-- The executor under which every statement succeeds. -/
def allSucceed : Executor := fun _ _ => none

/-- Three updates with versions 1, 2, 3; the second has no SQL. -/
def sampleUpdates : List DbUpdate :=
  [ { version := 1, update := "ALTER TABLE a ADD COLUMN x integer;" },
    { version := 2, update := "" },
    { version := 3, update := "ALTER TABLE b ADD COLUMN y integer;" } ]

/-! ## `routes/v2/oer_materials.js` (`src/services/platform/routes/v2/oer_materials.js`) -/

/-- A query parameter after `.optional().toInt()`: absent, `NaN`, or an integer. -/
inductive QueryInt where
  | absent
  | nan
  | int (n : Int)
  deriving DecidableEq, Repr

/-- The constant `MAX_LIMIT`. -/
def MAX_LIMIT : Int := 100

/-- The constant `DEFAULT_LIMIT`. -/
def DEFAULT_LIMIT : Int := 20

/-- The constant `DEFAULT_PAGE`. -/
def DEFAULT_PAGE : Int := 1

/-- The value of `!value` for a query parameter: absent, `NaN` and 0 are falsy. -/
def QueryInt.not : QueryInt → Bool
  | QueryInt.absent => true
  | QueryInt.nan => true
  | QueryInt.int n => n == 0

/-- The constant `limit` of the list handler, from `queryLimit`. -/
def handlerLimit (queryLimit : QueryInt) : Int :=
  if queryLimit.not then DEFAULT_LIMIT
  else
    match queryLimit with
    | QueryInt.int n =>
      if n ≤ 0 then DEFAULT_LIMIT
      else if n > MAX_LIMIT then DEFAULT_LIMIT
      else n
    | _ => DEFAULT_LIMIT

/-- The constant `page` of the list handler, from `queryPage`. -/
def handlerPage (queryPage : QueryInt) : Int :=
  if queryPage.not then DEFAULT_PAGE
  else
    match queryPage with
    | QueryInt.int n => n
    | _ => DEFAULT_PAGE

/-- The constant `offset` of the list handler. -/
def handlerOffset (queryLimit queryPage : QueryInt) : Int :=
  (handlerPage queryPage - 1) * handlerLimit queryLimit

/-- The argument `params` of `oerMaterialQuery`; `none` is `null` or `undefined`. -/
structure QueryParams where
  material_ids : Option (List Int)
  provider_ids : Option (List Int)
  languages : Option (List String)
  limit : Option Int
  offset : Option Int
  deriving DecidableEq, Repr

/-- The value of one `${...}` line of the template, when it is not the empty string. -/
inductive ClauseItem where
  /-- `WHERE` -/
  | whereKw
  /-- `AND` -/
  | andKw
  /-- `column IN ($a,$b,...)` -/
  | inList (column : String) (placeholders : List Nat)
  /-- `LIMIT n` -/
  | limit (n : Int)
  /-- `OFFSET n` -/
  | offset (n : Int)
  deriving DecidableEq, Repr

/-- The callback `() => $count++` mapped over `values`: the numbers of the placeholders
and the value of `count` afterwards. -/
def numberPlaceholders {α : Type} (count : Nat) : List α → List Nat × Nat
  | [] => ([], count)
  | _ :: rest => (count :: (numberPlaceholders (count + 1) rest).1,
      (numberPlaceholders (count + 1) rest).2)

/-- The six `${...}` lines of the filter clause (source lines 91 to 96), in order;
`none` is the empty string. -/
def filterLines (params : QueryParams) : List (Option ClauseItem) :=
  let conditionsFlag :=
    params.material_ids.isSome || params.provider_ids.isSome || params.languages.isSome
  let afterMaterialAND :=
    params.material_ids.isSome && (params.provider_ids.isSome || params.languages.isSome)
  let afterProviderAND := params.provider_ids.isSome && params.languages.isSome
  let count := 1
  let m := match params.material_ids with
    | some ids => numberPlaceholders count ids
    | none => ([], count)
  let p := match params.provider_ids with
    | some ids => numberPlaceholders m.2 ids
    | none => ([], m.2)
  let l := match params.languages with
    | some ls => numberPlaceholders p.2 ls
    | none => ([], p.2)
  [ if conditionsFlag then some ClauseItem.whereKw else none,
    if params.material_ids.isSome then some (ClauseItem.inList "URLS.material_id" m.1) else none,
    if afterMaterialAND then some ClauseItem.andKw else none,
    if params.provider_ids.isSome then some (ClauseItem.inList "URLS.provider_id" p.1) else none,
    if afterProviderAND then some ClauseItem.andKw else none,
    if params.languages.isSome then some (ClauseItem.inList "oer.language" l.1) else none ]

/-- The two `${...}` lines of the paging clause (source lines 98 and 99). -/
def pagingLines (params : QueryParams) : List (Option ClauseItem) :=
  [ params.limit.map ClauseItem.limit, params.offset.map ClauseItem.offset ]

/-- The filter clause: the non-empty values of the filter lines, in order. -/
def filterClause (params : QueryParams) : List ClauseItem :=
  (filterLines params).filterMap id

/-- The text of an item. -/
def ClauseItem.render : ClauseItem → String
  | ClauseItem.whereKw => "WHERE"
  | ClauseItem.andKw => "AND"
  | ClauseItem.inList column placeholders =>
    column ++ " IN (" ++ ",".intercalate (placeholders.map (fun n => "$" ++ toString n)) ++ ")"
  | ClauseItem.limit n => "LIMIT " ++ toString n
  | ClauseItem.offset n => "OFFSET " ++ toString n

/-- The text of a `${...}` line, behind the indentation of the template. -/
def renderLine (line : Option ClauseItem) : String :=
  "                " ++ (match line with
    | some item => item.render
    | none => "")

/-- The lines of the template of `oerMaterialQuery` before the filter clause (source lines 57 to 90). -/
def queryHeadLines : List String :=
  [ "            WITH URLS AS (",
    "                SELECT",
    "                    COALESCE(m.material_id, c.material_id) AS material_id,",
    "                    COALESCE(m.provider_id, c.provider_id) AS provider_id,",
    "                    m.url AS material_url,",
    "                    c.url AS website_url",
    "                FROM contains",
    "                LEFT JOIN urls m ON contains.contains_id = m.id",
    "                LEFT JOIN urls c ON contains.container_id = c.id",
    "                ORDER BY material_id",
    "            ),",
    "",
    "            OERS AS (",
    "                SELECT",
    "                    URLS.material_id,",
    "                    oer.title,",
    "                    oer.description,",
    "                    oer.creation_date,",
    "                    oer.retrieved_date,",
    "                    oer.type,",
    "                    oer.mimetype,",
    "                    URLS.material_url,",
    "                    URLS.website_url,",
    "                    oer.language,",
    "                    oer.license,",
    "                    p.name AS provider_name,",
    "                    URLS.provider_id,",
    "                    p.domain AS provider_domain,",
    "",
    "                    COUNT(*) OVER() AS total_count",
    "                FROM URLS",
    "                LEFT JOIN oer_materials oer ON URLS.material_id = oer.id",
    "                LEFT JOIN providers     p   ON URLS.provider_id = p.id",
    "" ]

/-- The lines of the template of `oerMaterialQuery` after the paging clause (source lines 100 to 128). -/
def queryTailLines : List String :=
  [ "            ),",
    "",
    "            CONTENTS AS (",
    "                SELECT",
    "                    oer_materials.id as material_id,",
    "                    array_agg(c.id) AS content_ids",
    "                FROM oer_materials",
    "                LEFT JOIN material_contents c ON c.material_id = oer_materials.id",
    "                GROUP BY oer_materials.id",
    "            ),",
    "",
    "            WIKIPEDIA AS (",
    "                SELECT",
    "                    oer_materials.id as material_id,",
    "                    array_agg(fp.id) as wikipedia_ids",
    "                FROM oer_materials",
    "                LEFT JOIN features_public fp ON fp.record_id = oer_materials.id",
    "                WHERE fp.table_name = 'oer_materials' AND fp.name = 'wikipedia_concepts'",
    "                GROUP BY oer_materials.id",
    "            )",
    "",
    "            SELECT",
    "                OERS.*,",
    "                CONTENTS.content_ids,",
    "                WIKIPEDIA.wikipedia_ids",
    "            FROM OERS",
    "            LEFT JOIN CONTENTS ON CONTENTS.material_id = OERS.material_id",
    "            LEFT JOIN WIKIPEDIA ON WIKIPEDIA.material_id = OERS.material_id",
    "            ORDER BY OERS.material_id;" ]

/-- The function `oerMaterialQuery(params)`: the template with its `${...}` lines filled. -/
def oerMaterialQuery (params : QueryParams) : String :=
  "\n".intercalate
    ([""] ++ queryHeadLines ++ (filterLines params).map renderLine ++ [""] ++
      (pagingLines params).map renderLine ++ queryTailLines ++ ["        "])

/-- An element of the array `parameters` handed to `pg.execute`. -/
inductive SqlParam where
  | int (n : Int)
  | text (s : String)
  deriving DecidableEq, Repr

/-- The array `parameters` of the list handler: the filters that are not null, in the
order material ids, provider ids, languages, concatenated. -/
def handlerParameters (material_ids provider_ids : Option (List Int))
    (languages : Option (List String)) : List SqlParam :=
  ([ material_ids.map (fun ids => ids.map SqlParam.int),
     provider_ids.map (fun ids => ids.map SqlParam.int),
     languages.map (fun ls => ls.map SqlParam.text) ].filterMap id).foldl
    (fun prev curr => prev ++ curr) []

/-- The placeholder numbers of the items, in the order of the text. -/
def placeholdersOf : List ClauseItem → List Nat
  | [] => []
  | ClauseItem.inList _ placeholders :: rest => placeholders ++ placeholdersOf rest
  | _ :: rest => placeholdersOf rest

/-- The placeholder numbers standing in the IN-lists on `column`. -/
def placeholdersIn (column : String) : List ClauseItem → List Nat
  | [] => []
  | ClauseItem.inList c placeholders :: rest =>
    (if c = column then placeholders else []) ++ placeholdersIn column rest
  | _ :: rest => placeholdersIn column rest

/-- The IN-conditions of the items, in order. -/
def conditionsOf : List ClauseItem → List ClauseItem
  | [] => []
  | ClauseItem.inList c placeholders :: rest =>
    ClauseItem.inList c placeholders :: conditionsOf rest
  | _ :: rest => conditionsOf rest

/-- The number of filters that are not null. -/
def filterCount (params : QueryParams) : Nat :=
  (if params.material_ids.isSome then 1 else 0) + (if params.provider_ids.isSome then 1 else 0)
    + (if params.languages.isSome then 1 else 0)

/-- The values of a filter, none when it is null. -/
def valuesOf {α : Type} : Option (List α) → List α
  | some values => values
  | none => []

/-- A request with two material ids and one language. -/
def sampleParams : QueryParams :=
  { material_ids := some [5, 7], provider_ids := none, languages := some ["en"],
    limit := some 20, offset := some 0 }

/-- The indentation in front of every `${...}` line of the template (16 blanks). -/
def clauseIndent : String := "                "

/-- The text of a `${...}` line without its indentation. -/
def lineText : Option ClauseItem → String
  | some item => item.render
  | none => ""

/-- The text `column IN ($first,...)` with `count` placeholders numbered from `first`. -/
def inCondition (column : String) (first count : Nat) : String :=
  column ++ " IN (" ++
    ",".intercalate ((List.range' first count).map (fun n => "$" ++ toString n)) ++ ")"

/-- The texts of the IN-conditions of the filters that are not null, in the order
material ids, provider ids, languages; the placeholders of each are numbered after
those of the filters before it. -/
def conditionTexts (params : QueryParams) : List String :=
  (match params.material_ids with
    | some ids => [inCondition "URLS.material_id" 1 ids.length]
    | none => []) ++
  (match params.provider_ids with
    | some ids =>
      [inCondition "URLS.provider_id" (1 + (valuesOf params.material_ids).length) ids.length]
    | none => []) ++
  (match params.languages with
    | some ls =>
      [inCondition "oer.language"
        (1 + (valuesOf params.material_ids).length + (valuesOf params.provider_ids).length)
        ls.length]
    | none => [])

/-- The filter clause as the claim words it: nothing without a condition, otherwise
`WHERE`, then the conditions with one `AND` between each two neighbours. -/
def expectedClause (params : QueryParams) : List String :=
  match conditionTexts params with
  | [] => []
  | conds => "WHERE" :: conds.intersperse "AND"

/-- A request with all three filters. -/
def fullParams : QueryParams :=
  { material_ids := some [5, 7], provider_ids := some [3], languages := some ["en", "sl"],
    limit := some 50, offset := some 100 }

/-! ## Properties of `receive` -/

theorem acks_onInsertDone (m : Material) (cs : List Completion) :
    acks ((cs.map (onInsertDone m)).flatten) = cs.map (fun _ => none) := by
  induction cs with
  | nil => rfl
  | cons c cs ih =>
    cases hc : c.error <;> simp [onInsertDone, hc, acks, ih]

theorem inserts_onInsertDone (m : Material) (cs : List Completion) :
    inserts ((cs.map (onInsertDone m)).flatten) = [] := by
  induction cs with
  | nil => rfl
  | cons c cs ih =>
    cases hc : c.error <;> simp [onInsertDone, hc, inserts, ih]

theorem warnings_onInsertDone (m : Material) (cs : List Completion) :
    warnings ((cs.map (onInsertDone m)).flatten)
      = (cs.filterMap (fun c => c.error)).map (fun e => (e.message, m.materialUrl)) := by
  induction cs with
  | nil => rfl
  | cons c cs ih =>
    cases hc : c.error <;> simp [onInsertDone, hc, warnings, ih]

theorem inserts_append (es fs : List Event) : inserts (es ++ fs) = inserts es ++ inserts fs := by
  induction es with
  | nil => rfl
  | cons e es ih => cases e <;> simp [inserts, ih]

theorem receive_ok {σ : Type} (pg : PgLib σ) (s : PostgresqlStorage) (c : PgConn)
    (m : Material) (sid : Option String) (db : σ) (hinit : s._pg = some c) :
    s.receive pg m sid db
      = .ok { self := s, db := (pg.insert m s._postgresTable db).1,
              trace := Event.pgInsert m s._postgresTable ::
                (((pg.insert m s._postgresTable db).2).map (onInsertDone m)).flatten } := by
  simp [PostgresqlStorage.receive, hinit]

/-- C1: on an initialised sink, for every material, stream id and store, if the store's
insert invokes its completion callback exactly once then `receive` returns normally and
invokes its ack callback exactly once. -/
theorem receive_acks_exactly_once {σ : Type} (pg : PgLib σ) (s : PostgresqlStorage)
    (c : PgConn) (m : Material) (sid : Option String) (db : σ)
    (hinit : s._pg = some c)
    (honce : (pg.insert m s._postgresTable db).2.length = 1) :
    raised (s.receive pg m sid db) = false ∧
      (acks (traceOf (s.receive pg m sid db))).length = 1 := by
  rw [receive_ok pg s c m sid db hinit]
  simp [raised, traceOf, acks, acks_onInsertDone, honce]

theorem receive_acks_exactly_once_witness :
    sampleSink._pg = some { config := [] } ∧
    ((failingPg "timeout").insert sampleMaterial sampleSink._postgresTable ()).2.length = 1 ∧
    (raised (sampleSink.receive (failingPg "timeout") sampleMaterial none ()) = false ∧
      (acks (traceOf
        (sampleSink.receive (failingPg "timeout") sampleMaterial none ()))).length = 1) :=
  ⟨rfl, rfl,
   receive_acks_exactly_once (failingPg "timeout") sampleSink { config := [] }
     sampleMaterial none () rfl rfl⟩

/-- C2: an initialised sink calls the store insert with the received material itself,
all fields unchanged, so the materialUrl it writes is the materialUrl it received; the
store after the call is the one that insert produced for that material. -/
theorem receive_hands_material_unchanged {σ : Type} (pg : PgLib σ) (s : PostgresqlStorage)
    (c : PgConn) (m : Material) (sid : Option String) (db : σ)
    (hinit : s._pg = some c) :
    inserts (traceOf (s.receive pg m sid db)) = [(m, s._postgresTable)] ∧
    (inserts (traceOf (s.receive pg m sid db))).map (fun p => p.1.materialUrl)
      = [m.materialUrl] ∧
    ∃ o, s.receive pg m sid db = .ok o ∧ o.db = (pg.insert m s._postgresTable db).1 := by
  rw [receive_ok pg s c m sid db hinit]
  simp [traceOf, inserts, inserts_onInsertDone]

theorem receive_hands_material_unchanged_witness :
    sampleSink._pg = some { config := [] } ∧
    (inserts (traceOf (sampleSink.receive succeedingPg sampleMaterial none ()))
        = [(sampleMaterial, sampleSink._postgresTable)] ∧
      (inserts (traceOf (sampleSink.receive succeedingPg sampleMaterial none ()))).map
          (fun p => p.1.materialUrl) = [sampleMaterial.materialUrl] ∧
      ∃ o, sampleSink.receive succeedingPg sampleMaterial none () = .ok o ∧
        o.db = (succeedingPg.insert sampleMaterial sampleSink._postgresTable ()).1) :=
  ⟨rfl, receive_hands_material_unchanged succeedingPg sampleSink { config := [] }
    sampleMaterial none () rfl⟩

/-- C3: when the store insert reports an error `e`, `receive` returns normally and does
exactly three things: the insert call, one `console.warn` with the error message and the
material url, and one invocation of the ack callback, without an error argument. -/
theorem receive_failure_is_logged_only {σ : Type} (pg : PgLib σ) (s : PostgresqlStorage)
    (c : PgConn) (m : Material) (sid : Option String) (db : σ) (e : PgError)
    (res : List Material)
    (hinit : s._pg = some c)
    (hfail : (pg.insert m s._postgresTable db).2 = [{ error := some e, result := res }]) :
    raised (s.receive pg m sid db) = false ∧
    traceOf (s.receive pg m sid db)
      = [Event.pgInsert m s._postgresTable,
         Event.consoleWarn e.message m.materialUrl,
         Event.callback none] := by
  rw [receive_ok pg s c m sid db hinit]
  simp [raised, traceOf, hfail, onInsertDone]

theorem receive_failure_is_logged_only_witness :
    sampleSink._pg = some { config := [] } ∧
    ((failingPg "timeout").insert sampleMaterial sampleSink._postgresTable ()).2
      = [{ error := some { message := some "timeout" }, result := [] }] ∧
    (raised (sampleSink.receive (failingPg "timeout") sampleMaterial none ()) = false ∧
      traceOf (sampleSink.receive (failingPg "timeout") sampleMaterial none ())
        = [Event.pgInsert sampleMaterial sampleSink._postgresTable,
           Event.consoleWarn (PgError.mk (some "timeout")).message sampleMaterial.materialUrl,
           Event.callback none]) :=
  ⟨rfl, rfl,
   receive_failure_is_logged_only (failingPg "timeout") sampleSink { config := [] }
     sampleMaterial none () { message := some "timeout" } [] rfl rfl⟩

/-- C4, as stated, fails: the insert of the sample material fails with the error
"timeout", and the ack callback is invoked without any error. -/
theorem receive_failure_ack_has_no_error :
    ((failingPg "timeout").insert sampleMaterial sampleSink._postgresTable ()).2
      = [{ error := some { message := some "timeout" }, result := [] }] ∧
    acks (traceOf (sampleSink.receive (failingPg "timeout") sampleMaterial none ())) = [none] ∧
    ¬ ∃ e, some e ∈
      acks (traceOf (sampleSink.receive (failingPg "timeout") sampleMaterial none ())) := by
  refine ⟨rfl, rfl, ?_⟩
  rintro ⟨e, he⟩
  have h : acks (traceOf (sampleSink.receive (failingPg "timeout") sampleMaterial none ()))
      = [none] := rfl
  rw [h] at he
  simp at he

theorem onInsertDone_events (m : Material) (d : Completion) :
    onInsertDone m d
      = [ (match d.error with
           | some e => Event.consoleWarn e.message m.materialUrl
           | none =>
             Event.consoleLog "material inserted into oer_material database" m.materialUrl),
          Event.callback none ] := by
  cases h : d.error <;> simp [onInsertDone, h]

theorem receive_trace_events {σ : Type} (pg : PgLib σ) (s : PostgresqlStorage) (c : PgConn)
    (m : Material) (sid : Option String) (db : σ) (hinit : s._pg = some c) :
    traceOf (s.receive pg m sid db)
      = Event.pgInsert m s._postgresTable ::
          ((pg.insert m s._postgresTable db).2.map (fun d =>
            [ (match d.error with
               | some e => Event.consoleWarn e.message m.materialUrl
               | none =>
                 Event.consoleLog "material inserted into oer_material database"
                   m.materialUrl),
              Event.callback none ])).flatten := by
  rw [receive_ok pg s c m sid db hinit]
  have hfun : onInsertDone m = (fun d =>
      [ (match d.error with
         | some e => Event.consoleWarn e.message m.materialUrl
         | none =>
           Event.consoleLog "material inserted into oer_material database" m.materialUrl),
        Event.callback none ]) := funext (onInsertDone_events m)
  simp only [traceOf, hfun]

/-- C4, amended: on an initialised sink `receive` never throws.  After the insert call,
for each completion of the insert in turn it writes one line (for a failure the warning
with the error message and the material url, otherwise the log line) and then invokes
the ack callback, without an error argument: the ack is invoked once per completion, a
failed insert included, and never carries the failure; the warnings are exactly the
failures reported. -/
theorem receive_failure_warned_not_acked {σ : Type} (pg : PgLib σ) (s : PostgresqlStorage)
    (c : PgConn) (m : Material) (sid : Option String) (db : σ)
    (hinit : s._pg = some c) :
    raised (s.receive pg m sid db) = false ∧
    traceOf (s.receive pg m sid db)
      = Event.pgInsert m s._postgresTable ::
          ((pg.insert m s._postgresTable db).2.map (fun d =>
            [ (match d.error with
               | some e => Event.consoleWarn e.message m.materialUrl
               | none =>
                 Event.consoleLog "material inserted into oer_material database"
                   m.materialUrl),
              Event.callback none ])).flatten ∧
    acks (traceOf (s.receive pg m sid db))
      = (pg.insert m s._postgresTable db).2.map (fun _ => none) ∧
    (∀ e res, (pg.insert m s._postgresTable db).2 = [{ error := some e, result := res }] →
      traceOf (s.receive pg m sid db)
        = [Event.pgInsert m s._postgresTable,
           Event.consoleWarn e.message m.materialUrl,
           Event.callback none] ∧
      acks (traceOf (s.receive pg m sid db)) = [none]) ∧
    (∀ a ∈ acks (traceOf (s.receive pg m sid db)), a = none) ∧
    warnings (traceOf (s.receive pg m sid db))
      = ((pg.insert m s._postgresTable db).2.filterMap (fun d => d.error)).map
          (fun e => (e.message, m.materialUrl)) := by
  refine ⟨?_, receive_trace_events pg s c m sid db hinit, ?_, ?_, ?_, ?_⟩
  · rw [receive_ok pg s c m sid db hinit]; rfl
  · rw [receive_ok pg s c m sid db hinit]
    simp [traceOf, acks, acks_onInsertDone]
  · intro e res hfail
    rw [receive_ok pg s c m sid db hinit]
    simp [traceOf, hfail, onInsertDone, acks]
  · rw [receive_ok pg s c m sid db hinit]
    simp [traceOf, acks, acks_onInsertDone]
  · rw [receive_ok pg s c m sid db hinit]
    simp [traceOf, warnings, warnings_onInsertDone]

theorem receive_failure_warned_not_acked_witness :
    sampleSink._pg = some { config := [] } ∧
    (raised (sampleSink.receive (failingPg "disk full") sampleMaterial none ()) = false ∧
      traceOf (sampleSink.receive (failingPg "disk full") sampleMaterial none ())
        = Event.pgInsert sampleMaterial sampleSink._postgresTable ::
            (((failingPg "disk full").insert sampleMaterial sampleSink._postgresTable ()).2.map
              (fun d =>
                [ (match d.error with
                   | some e => Event.consoleWarn e.message sampleMaterial.materialUrl
                   | none =>
                     Event.consoleLog "material inserted into oer_material database"
                       sampleMaterial.materialUrl),
                  Event.callback none ])).flatten ∧
      acks (traceOf (sampleSink.receive (failingPg "disk full") sampleMaterial none ()))
        = ((failingPg "disk full").insert sampleMaterial sampleSink._postgresTable ()).2.map
            (fun _ => none) ∧
      (∀ e res,
        ((failingPg "disk full").insert sampleMaterial sampleSink._postgresTable ()).2
            = [{ error := some e, result := res }] →
        traceOf (sampleSink.receive (failingPg "disk full") sampleMaterial none ())
          = [Event.pgInsert sampleMaterial sampleSink._postgresTable,
             Event.consoleWarn e.message sampleMaterial.materialUrl,
             Event.callback none] ∧
        acks (traceOf (sampleSink.receive (failingPg "disk full") sampleMaterial none ()))
          = [none]) ∧
      (∀ a ∈ acks (traceOf (sampleSink.receive (failingPg "disk full") sampleMaterial none ())),
        a = none) ∧
      warnings (traceOf (sampleSink.receive (failingPg "disk full") sampleMaterial none ()))
        = (((failingPg "disk full").insert sampleMaterial sampleSink._postgresTable ()).2.filterMap
            (fun d => d.error)).map (fun e => (e.message, sampleMaterial.materialUrl))) :=
  ⟨rfl, receive_failure_warned_not_acked (failingPg "disk full") sampleSink { config := [] }
    sampleMaterial none () rfl⟩

theorem sink_pg (b : Bolt) (pgCfg : PgConfig) (onEmit context : Option String) :
    (b.sink pgCfg onEmit context)._pg = some { config := (b.initConfig pgCfg onEmit).pg } := rfl

theorem sink_postgresTable (b : Bolt) (pgCfg : PgConfig) (onEmit context : Option String) :
    (b.sink pgCfg onEmit context)._postgresTable = initStr b.init "postgres_table" := rfl

theorem sink_receive_trace {σ : Type} (pg : PgLib σ) (b : Bolt) (pgCfg : PgConfig)
    (onEmit context : Option String) (m : Material) (sid : Option String) (db : σ) :
    traceOf ((b.sink pgCfg onEmit context).receive pg m sid db)
      = Event.pgInsert m (initStr b.init "postgres_table") ::
          (((pg.insert m (initStr b.init "postgres_table") db).2).map (onInsertDone m)).flatten := by
  rw [receive_ok pg _ _ m sid db (sink_pg b pgCfg onEmit context), sink_postgresTable]
  rfl

/-- C6, as stated, fails: on the production sink and on the development sink of the
topology, with a store whose every insert fails, `receive` calls insert once and acks:
there is no second attempt. -/
theorem primary_sink_failed_insert_not_retried :
    ((preprocessingVideo.boltsNamed "postgresql-storage-production" ++
        preprocessingVideo.boltsNamed "postgresql-storage-development").map
      (fun b => traceOf ((b.sink [] none none).receive (failingPg "timeout") sampleMaterial none ())))
      = [ [Event.pgInsert sampleMaterial (some "oer_materials"),
           Event.consoleWarn (some "timeout") (some "http://x.edu/v1"),
           Event.callback none],
          [Event.pgInsert sampleMaterial (some "oer_materials_dev"),
           Event.consoleWarn (some "timeout") (some "http://x.edu/v1"),
           Event.callback none] ] ∧
    ((preprocessingVideo.boltsNamed "postgresql-storage-production" ++
        preprocessingVideo.boltsNamed "postgresql-storage-development").map
      (fun b => (inserts (traceOf ((b.sink [] none none).receive (failingPg "timeout")
        sampleMaterial none ()))).length))
      = [1, 1] := by
  decide

theorem sink_receive_events {σ : Type} (pg : PgLib σ) (b : Bolt) (pgCfg : PgConfig)
    (onEmit context : Option String) (m : Material) (sid : Option String) (db : σ) :
    traceOf ((b.sink pgCfg onEmit context).receive pg m sid db)
      = Event.pgInsert m (initStr b.init "postgres_table") ::
          ((pg.insert m (initStr b.init "postgres_table") db).2.map (fun d =>
            [ (match d.error with
               | some e => Event.consoleWarn e.message m.materialUrl
               | none =>
                 Event.consoleLog "material inserted into oer_material database"
                   m.materialUrl),
              Event.callback none ])).flatten := by
  rw [receive_trace_events pg _ _ m sid db (sink_pg b pgCfg onEmit context),
    sink_postgresTable]

/-- C6, amended: for the production sink (table `oer_materials`) and the development
sink (table `oer_materials_dev`) of the topology, whatever the store does, `receive`
calls insert exactly once, on the sink's own table, as its first action, and is not
retried: what follows is, for each completion of that insert in turn, one line (the
warning with the error message and the material url for a failure, the log line
otherwise) and then the ack without an error argument. -/
theorem primary_sink_inserts_once {σ : Type} (pg : PgLib σ) (b : Bolt)
    (pgCfg : PgConfig) (onEmit context : Option String) (m : Material)
    (sid : Option String) (db : σ)
    (hb : b ∈ preprocessingVideo.bolts)
    (hname : b.name = "postgresql-storage-production" ∨
      b.name = "postgresql-storage-development") :
    ∃ table,
      ((b.name = "postgresql-storage-production" ∧ table = "oer_materials") ∨
        (b.name = "postgresql-storage-development" ∧ table = "oer_materials_dev")) ∧
      (b.sink pgCfg onEmit context)._postgresTable = some table ∧
      traceOf ((b.sink pgCfg onEmit context).receive pg m sid db)
        = Event.pgInsert m (some table) ::
            ((pg.insert m (some table) db).2.map (fun d =>
              [ (match d.error with
                 | some e => Event.consoleWarn e.message m.materialUrl
                 | none =>
                   Event.consoleLog "material inserted into oer_material database"
                     m.materialUrl),
                Event.callback none ])).flatten ∧
      inserts (traceOf ((b.sink pgCfg onEmit context).receive pg m sid db))
        = [(m, some table)] ∧
      acks (traceOf ((b.sink pgCfg onEmit context).receive pg m sid db))
        = (pg.insert m (some table) db).2.map (fun _ => none) ∧
      (∀ e res, (pg.insert m (some table) db).2 = [{ error := some e, result := res }] →
        traceOf ((b.sink pgCfg onEmit context).receive pg m sid db)
          = [Event.pgInsert m (some table),
             Event.consoleWarn e.message m.materialUrl,
             Event.callback none]) := by
  have hev := sink_receive_events pg b pgCfg onEmit context m sid db
  have htr := sink_receive_trace pg b pgCfg onEmit context m sid db
  have htab := sink_postgresTable b pgCfg onEmit context
  simp only [preprocessingVideo, List.mem_cons, List.mem_singleton, List.not_mem_nil,
    or_false] at hb
  rcases hb with h | h | h | h | h | h | h <;> subst h <;> simp at hname
  · have ht : initStr
        [("postgres_table", InitVal.str "oer_materials"), ("pg", InitVal.cfg ["pg"])]
        "postgres_table" = some "oer_materials" := rfl
    simp only [ht] at hev htr htab
    refine ⟨"oer_materials", Or.inl ⟨rfl, rfl⟩, htab, hev, ?_, ?_, ?_⟩
    · rw [htr]; simp [inserts, inserts_onInsertDone]
    · rw [htr]; simp [acks, acks_onInsertDone]
    · intro e res hfail
      rw [htr]; simp [hfail, onInsertDone]
  · have ht : initStr
        [("postgres_table", InitVal.str "oer_materials_dev"), ("pg", InitVal.cfg ["pg"])]
        "postgres_table" = some "oer_materials_dev" := rfl
    simp only [ht] at hev htr htab
    refine ⟨"oer_materials_dev", Or.inr ⟨rfl, rfl⟩, htab, hev, ?_, ?_, ?_⟩
    · rw [htr]; simp [inserts, inserts_onInsertDone]
    · rw [htr]; simp [acks, acks_onInsertDone]
    · intro e res hfail
      rw [htr]; simp [hfail, onInsertDone]

theorem primary_sink_inserts_once_witness :
    preprocessingVideo.bolts.get ⟨4, by decide⟩ ∈ preprocessingVideo.bolts ∧
    ((preprocessingVideo.bolts.get ⟨4, by decide⟩).name = "postgresql-storage-production" ∨
      (preprocessingVideo.bolts.get ⟨4, by decide⟩).name = "postgresql-storage-development") ∧
    ∃ table,
      (((preprocessingVideo.bolts.get ⟨4, by decide⟩).name = "postgresql-storage-production" ∧
          table = "oer_materials") ∨
        ((preprocessingVideo.bolts.get ⟨4, by decide⟩).name = "postgresql-storage-development" ∧
          table = "oer_materials_dev")) ∧
      ((preprocessingVideo.bolts.get ⟨4, by decide⟩).sink [] none none)._postgresTable
        = some table ∧
      traceOf (((preprocessingVideo.bolts.get ⟨4, by decide⟩).sink [] none none).receive
          (failingPg "timeout") sampleMaterial none ())
        = Event.pgInsert sampleMaterial (some table) ::
            (((failingPg "timeout").insert sampleMaterial (some table) ()).2.map (fun d =>
              [ (match d.error with
                 | some e => Event.consoleWarn e.message sampleMaterial.materialUrl
                 | none =>
                   Event.consoleLog "material inserted into oer_material database"
                     sampleMaterial.materialUrl),
                Event.callback none ])).flatten ∧
      inserts (traceOf (((preprocessingVideo.bolts.get ⟨4, by decide⟩).sink [] none none).receive
          (failingPg "timeout") sampleMaterial none ()))
        = [(sampleMaterial, some table)] ∧
      acks (traceOf (((preprocessingVideo.bolts.get ⟨4, by decide⟩).sink [] none none).receive
          (failingPg "timeout") sampleMaterial none ()))
        = ((failingPg "timeout").insert sampleMaterial (some table) ()).2.map (fun _ => none) ∧
      (∀ e res,
        ((failingPg "timeout").insert sampleMaterial (some table) ()).2
            = [{ error := some e, result := res }] →
        traceOf (((preprocessingVideo.bolts.get ⟨4, by decide⟩).sink [] none none).receive
            (failingPg "timeout") sampleMaterial none ())
          = [Event.pgInsert sampleMaterial (some table),
             Event.consoleWarn e.message sampleMaterial.materialUrl,
             Event.callback none]) :=
  ⟨by decide, by decide,
   primary_sink_inserts_once (failingPg "timeout") (preprocessingVideo.bolts.get ⟨4, by decide⟩)
     [] none none sampleMaterial none () (by decide) (by decide)⟩

/-- C7: for the sink `postgresql-storage-partial` of the topology, whatever the store
does with the insert (failure or success, any number of completions), `receive` calls
the store insert exactly once, with the received material and the table
`oer_materials_partial`: there is no second attempt. -/
theorem capture_sink_inserts_once {σ : Type} (pg : PgLib σ) (b : Bolt)
    (pgCfg : PgConfig) (onEmit context : Option String) (m : Material)
    (sid : Option String) (db : σ)
    (hb : b ∈ preprocessingVideo.bolts)
    (hname : b.name = "postgresql-storage-partial") :
    inserts (traceOf ((b.sink pgCfg onEmit context).receive pg m sid db))
      = [(m, some "oer_materials_partial")] ∧
    (inserts (traceOf ((b.sink pgCfg onEmit context).receive pg m sid db))).length = 1 := by
  rw [sink_receive_trace]
  simp only [preprocessingVideo, List.mem_cons, List.mem_singleton, List.not_mem_nil,
    or_false] at hb
  rcases hb with h | h | h | h | h | h | h <;> subst h <;> simp at hname
  simp [inserts, inserts_onInsertDone, initStr, List.lookup]

theorem capture_sink_inserts_once_witness :
    preprocessingVideo.bolts.get ⟨6, by decide⟩ ∈ preprocessingVideo.bolts ∧
    (preprocessingVideo.bolts.get ⟨6, by decide⟩).name = "postgresql-storage-partial" ∧
    (inserts (traceOf (((preprocessingVideo.bolts.get ⟨6, by decide⟩).sink [] none none).receive
        (failingPg "timeout") sampleMaterial (some "stream_partial") ()))
      = [(sampleMaterial, some "oer_materials_partial")] ∧
    (inserts (traceOf (((preprocessingVideo.bolts.get ⟨6, by decide⟩).sink [] none none).receive
        (failingPg "timeout") sampleMaterial (some "stream_partial") ()))).length = 1) :=
  ⟨by decide, by decide,
   capture_sink_inserts_once (failingPg "timeout") (preprocessingVideo.bolts.get ⟨6, by decide⟩)
     [] none none sampleMaterial (some "stream_partial") () (by decide) (by decide)⟩

theorem run_initialised {σ : Type} (pg : PgLib σ) (s : PostgresqlStorage) (c : PgConn)
    (hinit : s._pg = some c) (ops : List Op) (db : σ) :
    ∃ o, run pg s db ops = .ok o ∧ o.self = s ∧
      inserts o.trace = (received ops).map (fun m => (m, s._postgresTable)) := by
  induction ops generalizing db with
  | nil => exact ⟨_, rfl, rfl, rfl⟩
  | cons op ops ih =>
    cases op with
    | heartbeat =>
      obtain ⟨o, ho, hs, hi⟩ := ih db
      refine ⟨{ o with trace := [] ++ o.trace }, ?_, hs, ?_⟩
      · simp [run, step, PostgresqlStorage.heartbeat, ho]
      · simpa [received] using hi
    | receive m sid =>
      obtain ⟨o, ho, hs, hi⟩ := ih (pg.insert m s._postgresTable db).1
      refine ⟨{ o with trace := (Event.pgInsert m s._postgresTable ::
          (((pg.insert m s._postgresTable db).2).map (onInsertDone m)).flatten) ++ o.trace },
        ?_, hs, ?_⟩
      · simp [run, step, receive_ok pg s c m sid db hinit, ho]
      · simp [received, inserts, inserts_append, inserts_onInsertDone, hi]
    | shutdown =>
      obtain ⟨o, ho, hs, hi⟩ := ih (pg.close db)
      refine ⟨{ o with trace := [Event.pgClose, Event.callback none] ++ o.trace }, ?_, hs, ?_⟩
      · simp [run, step, PostgresqlStorage.shutdown, hinit, ho]
      · simpa [received, inserts] using hi

/-- C8: after `init(name, config, context, callback)`, on any earlier state, any sequence
of `heartbeat`, `receive` and `shutdown` calls runs without throwing, leaves
`_postgresTable` equal to `config.postgres_table`, and its insert calls are exactly one
per `receive`, in order, each with the received material and the table
`config.postgres_table`. -/
theorem table_fixed_at_init {σ : Type} (pg : PgLib σ) (s0 : PostgresqlStorage)
    (name : String) (config : BoltConfig) (context : Option String) (db : σ)
    (ops : List Op) :
    ∃ o, run pg (s0.init name config context db).self db ops = .ok o ∧
      o.self._postgresTable = config.postgres_table ∧
      inserts o.trace = (received ops).map (fun m => (m, config.postgres_table)) := by
  obtain ⟨o, ho, hs, hi⟩ :=
    run_initialised pg (s0.init name config context db).self { config := config.pg } rfl ops db
  exact ⟨o, ho, by rw [hs]; rfl, hi⟩

/-! ## Two writes of the same URL -/

theorem upsertRow_count (d : OnDuplicate) (m : Material) (url : String)
    (hm : m.materialUrl = some url) (rows : List Material) :
    ((upsertRow d m rows).filter (fun r => r.materialUrl == some url)).length
      = max 1 ((rows.filter (fun r => r.materialUrl == some url)).length) := by
  induction rows with
  | nil => simp [upsertRow, hm]
  | cons r rs ih =>
    by_cases hr : r.materialUrl = some url
    · cases d <;> simp [upsertRow, hm, hr]
    · simp [upsertRow, hm, hr, ih]

theorem upsertRow_length (d : OnDuplicate) (m : Material) (url : String)
    (hm : m.materialUrl = some url) (rows : List Material)
    (hpos : 0 < (rows.filter (fun r => r.materialUrl == some url)).length) :
    (upsertRow d m rows).length = rows.length := by
  induction rows with
  | nil => simp at hpos
  | cons r rs ih =>
    by_cases hr : r.materialUrl = some url
    · cases d <;> simp [upsertRow, hm, hr]
    · simp [hr] at hpos
      simp [upsertRow, hm, hr, ih hpos]

theorem storage_bolt_table (b : Bolt) (hb : b ∈ preprocessingVideo.bolts)
    (hcmd : b.cmd = "postgresql-storage.js") :
    initStr b.init "postgres_table" ∈ storageTables := by
  simp only [preprocessingVideo, List.mem_cons, List.mem_singleton, List.not_mem_nil,
    or_false] at hb
  rcases hb with h | h | h | h | h | h | h <;> subst h <;> simp at hcmd <;>
    simp [storageTables, initStr, List.lookup]

/-- C5 (against the store of section 4.3): for each storage bolt of the topology, its
table is one of `oer_materials`, `oer_materials_dev`, `oer_materials_partial`; when the
table holds at most one row for a URL and the sink receives two materials with that URL,
both calls return, the table then holds exactly one row for the URL, the second write
adds no row, and the second call logs no warning and acks once without error. -/
theorem same_url_twice_leaves_one_row (d : OnDuplicate) (b : Bolt) (pgCfg : PgConfig)
    (onEmit context : Option String) (db : Db) (m1 m2 : Material)
    (sid1 sid2 : Option String) (url : String)
    (hb : b ∈ preprocessingVideo.bolts) (hcmd : b.cmd = "postgresql-storage.js")
    (h1 : m1.materialUrl = some url) (h2 : m2.materialUrl = some url)
    (hdb : (rowsWithUrl db (initStr b.init "postgres_table") url).length ≤ 1) :
    initStr b.init "postgres_table" ∈ storageTables ∧
    ∃ o1 o2,
      (b.sink pgCfg onEmit context).receive (upsertPg d) m1 sid1 db = .ok o1 ∧
      o1.self.receive (upsertPg d) m2 sid2 o1.db = .ok o2 ∧
      (rowsWithUrl o2.db (initStr b.init "postgres_table") url).length = 1 ∧
      (o2.db (initStr b.init "postgres_table")).length
        = (o1.db (initStr b.init "postgres_table")).length ∧
      warnings o2.trace = [] ∧
      acks o2.trace = [none] := by
  refine ⟨storage_bolt_table b hb hcmd, _, _,
    receive_ok (upsertPg d) _ _ m1 sid1 db (sink_pg b pgCfg onEmit context),
    receive_ok (upsertPg d) _ _ m2 sid2 _ (sink_pg b pgCfg onEmit context), ?_, ?_, ?_, ?_⟩
  · have hc1 := upsertRow_count d m1 url h1 (db (initStr b.init "postgres_table"))
    have hc2 := upsertRow_count d m2 url h2
      (upsertRow d m1 (db (initStr b.init "postgres_table")))
    simp only [rowsWithUrl] at hdb
    simp only [rowsWithUrl, upsertPg, sink_postgresTable, if_true]
    omega
  · have hc1 := upsertRow_count d m1 url h1 (db (initStr b.init "postgres_table"))
    simp only [upsertPg, sink_postgresTable, if_true]
    exact upsertRow_length d m2 url h2 _ (by omega)
  · simp [upsertPg, onInsertDone, warnings]
  · simp [upsertPg, onInsertDone, acks]

theorem same_url_twice_leaves_one_row_witness :
    preprocessingVideo.bolts.get ⟨6, by decide⟩ ∈ preprocessingVideo.bolts ∧
    (preprocessingVideo.bolts.get ⟨6, by decide⟩).cmd = "postgresql-storage.js" ∧
    sampleMaterial.materialUrl = some "http://x.edu/v1" ∧
    sampleMaterialAgain.materialUrl = some "http://x.edu/v1" ∧
    (rowsWithUrl emptyDb
      (initStr (preprocessingVideo.bolts.get ⟨6, by decide⟩).init "postgres_table")
      "http://x.edu/v1").length ≤ 1 ∧
    (initStr (preprocessingVideo.bolts.get ⟨6, by decide⟩).init "postgres_table"
        ∈ storageTables ∧
      ∃ o1 o2,
        ((preprocessingVideo.bolts.get ⟨6, by decide⟩).sink [] none none).receive
            (upsertPg OnDuplicate.update) sampleMaterial (some "stream_partial") emptyDb
          = .ok o1 ∧
        o1.self.receive (upsertPg OnDuplicate.update) sampleMaterialAgain
            (some "stream_partial") o1.db = .ok o2 ∧
        (rowsWithUrl o2.db
          (initStr (preprocessingVideo.bolts.get ⟨6, by decide⟩).init "postgres_table")
          "http://x.edu/v1").length = 1 ∧
        (o2.db (initStr (preprocessingVideo.bolts.get ⟨6, by decide⟩).init "postgres_table")).length
          = (o1.db
              (initStr (preprocessingVideo.bolts.get ⟨6, by decide⟩).init "postgres_table")).length ∧
        warnings o2.trace = [] ∧
        acks o2.trace = [none]) :=
  ⟨by decide, by decide, rfl, rfl, by decide,
   same_url_twice_leaves_one_row OnDuplicate.update (preprocessingVideo.bolts.get ⟨6, by decide⟩)
     [] none none emptyDb sampleMaterial sampleMaterialAgain (some "stream_partial")
     (some "stream_partial") "http://x.edu/v1" (by decide) (by decide) rfl rfl (by decide)⟩

/-! ## The bindings of the topology -/

/-- C9: the topology has the single spout `video-input`; each of `material-format`,
`video-content-extraction`, `wikification`, `material-validator` is declared once, with
exactly one input, on the default stream, whose source is the preceding stage of the
chain; and the default-stream bindings of the whole topology are these four followed by
the two from `material-validator` into the catalog sinks. -/
theorem default_stream_chain :
    preprocessingVideo.spouts.map (fun s => s.name) = ["video-input"] ∧
    (["material-format", "video-content-extraction", "wikification", "material-validator"].map
        (fun n => (preprocessingVideo.boltsNamed n).map (fun b => b.inputs)))
      = [ [[{ source := "video-input", stream_id := none }]],
          [[{ source := "material-format", stream_id := none }]],
          [[{ source := "video-content-extraction", stream_id := none }]],
          [[{ source := "wikification", stream_id := none }]] ] ∧
    preprocessingVideo.bindings none
      = [ ("video-input", "material-format"),
          ("material-format", "video-content-extraction"),
          ("video-content-extraction", "wikification"),
          ("wikification", "material-validator"),
          ("material-validator", "postgresql-storage-production"),
          ("material-validator", "postgresql-storage-development") ] := by
  decide

/-- C10: the default stream of `material-validator` is consumed by exactly
`postgresql-storage-production` and `postgresql-storage-development`; each is declared
once, runs `postgresql-storage.js`, and is initialised with the table `oer_materials`,
respectively `oer_materials_dev`, which differ. -/
theorem validator_feeds_both_catalog_sinks :
    preprocessingVideo.consumers "material-validator" none
      = ["postgresql-storage-production", "postgresql-storage-development"] ∧
    (preprocessingVideo.boltsNamed "postgresql-storage-production").map
        (fun b => (b.cmd, (b.sink [] none none)._postgresTable))
      = [("postgresql-storage.js", some "oer_materials")] ∧
    (preprocessingVideo.boltsNamed "postgresql-storage-development").map
        (fun b => (b.cmd, (b.sink [] none none)._postgresTable))
      = [("postgresql-storage.js", some "oer_materials_dev")] ∧
    (preprocessingVideo.boltsNamed "postgresql-storage-production").map
        (fun b => (b.sink [] none none)._postgresTable)
      ≠ (preprocessingVideo.boltsNamed "postgresql-storage-development").map
        (fun b => (b.sink [] none none)._postgresTable) := by
  decide

/-- C11: on the stream `stream_partial` each of `material-format`,
`video-content-extraction`, `wikification`, `material-validator` is bound to
`postgresql-storage-partial` and to nothing else; that bolt is declared once, its inputs
are these four and none is on the default stream; no binding on any stream has it as
source; and its table is `oer_materials_partial`, which is neither `oer_materials` nor
`oer_materials_dev`. -/
theorem diagnostic_stream_fans_into_capture_sink :
    (["material-format", "video-content-extraction", "wikification", "material-validator"].map
        (fun n => preprocessingVideo.consumers n (some "stream_partial")))
      = [ ["postgresql-storage-partial"], ["postgresql-storage-partial"],
          ["postgresql-storage-partial"], ["postgresql-storage-partial"] ] ∧
    (preprocessingVideo.boltsNamed "postgresql-storage-partial").map (fun b => b.inputs)
      = [ [ { source := "material-format", stream_id := some "stream_partial" },
            { source := "video-content-extraction", stream_id := some "stream_partial" },
            { source := "wikification", stream_id := some "stream_partial" },
            { source := "material-validator", stream_id := some "stream_partial" } ] ] ∧
    (preprocessingVideo.bindings none).filter (fun p => p.2 == "postgresql-storage-partial")
      = [] ∧
    preprocessingVideo.allBindings.filter (fun x => x.1 == "postgresql-storage-partial") = [] ∧
    (preprocessingVideo.boltsNamed "postgresql-storage-partial").map
        (fun b => (b.sink [] none none)._postgresTable)
      = [some "oer_materials_partial"] ∧
    (some "oer_materials_partial" : Option String) ∉
      (preprocessingVideo.boltsNamed "postgresql-storage-production" ++
        preprocessingVideo.boltsNamed "postgresql-storage-development").map
        (fun b => (b.sink [] none none)._postgresTable) := by
  decide

/-- C12: every bolt of the topology declares at least one input binding, and the source
of every input binding is the name of a declared spout or bolt of the topology. -/
theorem inputs_resolve (b : Bolt) (hb : b ∈ preprocessingVideo.bolts) :
    b.inputs ≠ [] ∧ ∀ i ∈ b.inputs, i.source ∈ preprocessingVideo.stageNames := by
  have h : ∀ b ∈ preprocessingVideo.bolts,
      b.inputs ≠ [] ∧ ∀ i ∈ b.inputs, i.source ∈ preprocessingVideo.stageNames := by
    decide
  exact h b hb

theorem inputs_resolve_witness :
    preprocessingVideo.bolts.get ⟨6, by decide⟩ ∈ preprocessingVideo.bolts ∧
    ((preprocessingVideo.bolts.get ⟨6, by decide⟩).inputs ≠ [] ∧
      ∀ i ∈ (preprocessingVideo.bolts.get ⟨6, by decide⟩).inputs,
        i.source ∈ preprocessingVideo.stageNames) :=
  ⟨by decide, inputs_resolve (preprocessingVideo.bolts.get ⟨6, by decide⟩) (by decide)⟩

/-! ## Shape of the binding graph -/

theorem edge_raises_position (a b : String) (h : preprocessingVideo.edge a b) :
    preprocessingVideo.position a < preprocessingVideo.position b := by
  have hall : ∀ p ∈ preprocessingVideo.edges,
      preprocessingVideo.position p.1 < preprocessingVideo.position p.2 := by
    decide
  exact hall (a, b) h

theorem path_raises_position (a b : String)
    (h : Relation.TransGen preprocessingVideo.edge a b) :
    preprocessingVideo.position a < preprocessingVideo.position b := by
  induction h with
  | single hab => exact edge_raises_position _ _ hab
  | tail _ hbc ih => exact lt_trans ih (edge_raises_position _ _ hbc)

/-- C13: the binding graph of the topology, over all streams, has no cycle (no stage is
reached from itself along one or more bindings); and no bolt declares an input whose
source is the bolt itself. -/
theorem binding_graph_acyclic :
    (∀ v, ¬ Relation.TransGen preprocessingVideo.edge v v) ∧
    (∀ b ∈ preprocessingVideo.bolts, ∀ i ∈ b.inputs, i.source ≠ b.name) := by
  refine ⟨fun v h => lt_irrefl _ (path_raises_position v v h), ?_⟩
  decide

theorem edge_of_mem (a b : String) (h : (a, b) ∈ preprocessingVideo.edges) :
    preprocessingVideo.edge a b := h

/-- C14: every bolt of the topology is reached from the spout `video-input` along one or
more input bindings, followed from source to consumer. -/
theorem bolts_reachable_from_spout (b : Bolt) (hb : b ∈ preprocessingVideo.bolts) :
    Relation.TransGen preprocessingVideo.edge "video-input" b.name := by
  have e1 : Relation.TransGen preprocessingVideo.edge "video-input" "material-format" :=
    Relation.TransGen.single (edge_of_mem _ _ (by decide))
  have e2 : Relation.TransGen preprocessingVideo.edge "video-input"
      "video-content-extraction" := e1.tail (edge_of_mem _ _ (by decide))
  have e3 : Relation.TransGen preprocessingVideo.edge "video-input" "wikification" :=
    e2.tail (edge_of_mem _ _ (by decide))
  have e4 : Relation.TransGen preprocessingVideo.edge "video-input" "material-validator" :=
    e3.tail (edge_of_mem _ _ (by decide))
  simp only [preprocessingVideo, List.mem_cons, List.mem_singleton, List.not_mem_nil,
    or_false] at hb
  rcases hb with h | h | h | h | h | h | h <;> subst h
  · exact e1
  · exact e2
  · exact e3
  · exact e4
  · exact e4.tail (edge_of_mem _ _ (by decide))
  · exact e4.tail (edge_of_mem _ _ (by decide))
  · exact e1.tail (edge_of_mem _ _ (by decide))

theorem bolts_reachable_from_spout_witness :
    preprocessingVideo.bolts.get ⟨5, by decide⟩ ∈ preprocessingVideo.bolts ∧
    Relation.TransGen preprocessingVideo.edge "video-input"
      (preprocessingVideo.bolts.get ⟨5, by decide⟩).name :=
  ⟨by decide, bolts_reachable_from_spout (preprocessingVideo.bolts.get ⟨5, by decide⟩) (by decide)⟩

/-! ## What the capture sink stores -/

/-- C15, as stated, fails: the sink `postgresql-storage-partial` receives the sample
material on `stream_partial` and hands the store exactly that material; its properties
are `title` and `description` (besides `materialUrl`), so it carries no timestamp, and
no property value is the name of a stage of the topology. -/
theorem capture_sink_adds_no_label :
    (preprocessingVideo.boltsNamed "postgresql-storage-partial").map
        (fun b => inserts (traceOf ((b.sink [] none none).receive succeedingPg sampleMaterial
          (some "stream_partial") ())))
      = [[(sampleMaterial, some "oer_materials_partial")]] ∧
    sampleMaterial.props.map (fun p => p.1) = ["title", "description"] ∧
    (sampleMaterial.props.filter
        (fun p => preprocessingVideo.stageNames.contains p.2)) = [] := by
  decide

/-- C15, amended: for every envelope it receives, the sink `postgresql-storage-partial`
hands the store the envelope state as received, with the envelope's own properties and
material url and nothing added (no stage name, no timestamp), on the table
`oer_materials_partial`; what it does is the same whatever the stream id. -/
theorem capture_sink_stores_envelope_as_received {σ : Type} (pg : PgLib σ) (b : Bolt)
    (pgCfg : PgConfig) (onEmit context : Option String) (m : Material)
    (sid sid2 : Option String) (db : σ)
    (hb : b ∈ preprocessingVideo.bolts)
    (hname : b.name = "postgresql-storage-partial") :
    (inserts (traceOf ((b.sink pgCfg onEmit context).receive pg m sid db))).map
        (fun p => (p.1.materialUrl, p.1.props, p.2))
      = [(m.materialUrl, m.props, some "oer_materials_partial")] ∧
    traceOf ((b.sink pgCfg onEmit context).receive pg m sid db)
      = traceOf ((b.sink pgCfg onEmit context).receive pg m sid2 db) := by
  rw [sink_receive_trace, sink_receive_trace]
  simp only [preprocessingVideo, List.mem_cons, List.mem_singleton, List.not_mem_nil,
    or_false] at hb
  rcases hb with h | h | h | h | h | h | h <;> subst h <;> simp at hname
  simp [inserts, inserts_onInsertDone, initStr, List.lookup]

theorem capture_sink_stores_envelope_as_received_witness :
    preprocessingVideo.bolts.get ⟨6, by decide⟩ ∈ preprocessingVideo.bolts ∧
    (preprocessingVideo.bolts.get ⟨6, by decide⟩).name = "postgresql-storage-partial" ∧
    ((inserts (traceOf (((preprocessingVideo.bolts.get ⟨6, by decide⟩).sink [] none none).receive
        succeedingPg sampleMaterial (some "stream_partial") ()))).map
        (fun p => (p.1.materialUrl, p.1.props, p.2))
      = [(sampleMaterial.materialUrl, sampleMaterial.props, some "oer_materials_partial")] ∧
    traceOf (((preprocessingVideo.bolts.get ⟨6, by decide⟩).sink [] none none).receive
        succeedingPg sampleMaterial (some "stream_partial") ())
      = traceOf (((preprocessingVideo.bolts.get ⟨6, by decide⟩).sink [] none none).receive
        succeedingPg sampleMaterial none ())) :=
  ⟨by decide, by decide,
   capture_sink_stores_envelope_as_received succeedingPg
     (preprocessingVideo.bolts.get ⟨6, by decide⟩) [] none none sampleMaterial
     (some "stream_partial") none () (by decide) (by decide)⟩

/-! ## Lifecycle: `init` and `shutdown` -/

theorem shutdown_ok {σ : Type} (pg : PgLib σ) (s : PostgresqlStorage) (c : PgConn)
    (db : σ) (hinit : s._pg = some c) :
    s.shutdown pg db
      = .ok { self := s, db := pg.close db, trace := [Event.pgClose, Event.callback none] } := by
  simp [PostgresqlStorage.shutdown, hinit]

/-- C16, as stated, fails: on the sample sink, with a connection that refuses inserts
once closed, a `receive` that follows `shutdown` is carried out like any other: it calls
the store insert with the material and the table, logs the outcome and acks. -/
theorem receive_after_shutdown_still_inserts :
    traceOf (run closingPg sampleSink false [Op.shutdown, Op.receive sampleMaterial none])
      = [Event.pgClose, Event.callback none,
         Event.pgInsert sampleMaterial (some "oer_materials"),
         Event.consoleWarn (some "connection closed") (some "http://x.edu/v1"),
         Event.callback none] ∧
    inserts (traceOf
        (run closingPg sampleSink false [Op.shutdown, Op.receive sampleMaterial none]))
      ≠ [] := by
  decide

/-- C16, amended: `shutdown` closes the connection and calls back but leaves the sink as
it was; a `receive` that follows is carried out as before: it calls the store insert
once, on the closed connection, with the received material and the sink table, and runs
its completion handler (log, ack) for each completion.  Whether a row is written is up
to the connection. -/
theorem receive_after_shutdown_calls_insert {σ : Type} (pg : PgLib σ)
    (s : PostgresqlStorage) (c : PgConn) (m : Material) (sid : Option String) (db : σ)
    (hinit : s._pg = some c) :
    ∃ o, run pg s db [Op.shutdown, Op.receive m sid] = .ok o ∧
      o.self = s ∧
      o.db = (pg.insert m s._postgresTable (pg.close db)).1 ∧
      o.trace = [Event.pgClose, Event.callback none, Event.pgInsert m s._postgresTable] ++
        (((pg.insert m s._postgresTable (pg.close db)).2).map (onInsertDone m)).flatten ∧
      inserts o.trace = [(m, s._postgresTable)] := by
  have hrun : run pg s db [Op.shutdown, Op.receive m sid]
      = .ok { self := s, db := (pg.insert m s._postgresTable (pg.close db)).1,
              trace := [Event.pgClose, Event.callback none, Event.pgInsert m s._postgresTable] ++
                (((pg.insert m s._postgresTable (pg.close db)).2).map (onInsertDone m)).flatten } := by
    simp [run, step, shutdown_ok pg s c db hinit, receive_ok pg s c m sid _ hinit]
  refine ⟨_, hrun, rfl, rfl, rfl, ?_⟩
  simp [inserts, inserts_append, inserts_onInsertDone]

theorem receive_after_shutdown_calls_insert_witness :
    sampleSink._pg = some { config := [] } ∧
    ∃ o, run closingPg sampleSink false [Op.shutdown, Op.receive sampleMaterial none] = .ok o ∧
      o.self = sampleSink ∧
      o.db = (closingPg.insert sampleMaterial sampleSink._postgresTable
        (closingPg.close false)).1 ∧
      o.trace = [Event.pgClose, Event.callback none,
          Event.pgInsert sampleMaterial sampleSink._postgresTable] ++
        (((closingPg.insert sampleMaterial sampleSink._postgresTable
          (closingPg.close false)).2).map (onInsertDone sampleMaterial)).flatten ∧
      inserts o.trace = [(sampleMaterial, sampleSink._postgresTable)] :=
  ⟨rfl, receive_after_shutdown_calls_insert closingPg sampleSink { config := [] }
    sampleMaterial none false rfl⟩

/-- C17: on an initialised sink `shutdown(done)` returns normally; it calls `close` on the
store connection once, then invokes `done` once, without an error argument, and does
nothing else; the store afterwards is the closed one and the sink fields are unchanged. -/
theorem shutdown_closes_then_calls_back {σ : Type} (pg : PgLib σ) (s : PostgresqlStorage)
    (c : PgConn) (db : σ) (hinit : s._pg = some c) :
    raised (s.shutdown pg db) = false ∧
    traceOf (s.shutdown pg db) = [Event.pgClose, Event.callback none] ∧
    ∃ o, s.shutdown pg db = .ok o ∧ o.db = pg.close db ∧ o.self = s := by
  rw [shutdown_ok pg s c db hinit]
  simp [raised, traceOf]

theorem shutdown_closes_then_calls_back_witness :
    sampleSink._pg = some { config := [] } ∧
    (raised (sampleSink.shutdown closingPg false) = false ∧
      traceOf (sampleSink.shutdown closingPg false) = [Event.pgClose, Event.callback none] ∧
      ∃ o, sampleSink.shutdown closingPg false = .ok o ∧ o.db = closingPg.close false ∧
        o.self = sampleSink) :=
  ⟨rfl, shutdown_closes_then_calls_back closingPg sampleSink { config := [] } false rfl⟩

/-- C18: `init(name, config, context, callback)`, on any earlier state, records the
stage name, the context, `config.onEmit` and `config.postgres_table`, creates the
connection from `config.pg`, then invokes `callback` once without error, and does nothing
else; a `receive` on the resulting sink returns normally and calls insert on that
connection with the table `config.postgres_table`. -/
theorem init_records_and_connects {σ : Type} (pg : PgLib σ) (s0 : PostgresqlStorage)
    (name : String) (config : BoltConfig) (context : Option String) (db : σ)
    (m : Material) (sid : Option String) :
    (s0.init name config context db).self._name = some name ∧
    (s0.init name config context db).self._context = context ∧
    (s0.init name config context db).self._onEmit = config.onEmit ∧
    (s0.init name config context db).self._postgresTable = config.postgres_table ∧
    (s0.init name config context db).self._pg = some { config := config.pg } ∧
    (s0.init name config context db).trace = [Event.pgCreate config.pg, Event.callback none] ∧
    (s0.init name config context db).db = db ∧
    raised ((s0.init name config context db).self.receive pg m sid db) = false ∧
    inserts (traceOf ((s0.init name config context db).self.receive pg m sid db))
      = [(m, config.postgres_table)] := by
  refine ⟨rfl, rfl, rfl, rfl, rfl, rfl, rfl, ?_, ?_⟩
  · rw [receive_ok pg _ { config := config.pg } m sid db rfl]; rfl
  · rw [receive_ok pg _ { config := config.pg } m sid db rfl]
    simp [traceOf, inserts, inserts_onInsertDone, PostgresqlStorage.init]

/-! ## `x5recommend` -/

/-- C19: `_loadBase` throws exactly when `params.mode` is none of `create`,
`createClean`, `open`, `readOnly`, and what it throws is the message
"Value of parameter 'mode' is not supported: " followed by the mode; for the four
supported modes it opens the base with the normalised path, both caches 10000, and mode
`create`, `createClean`, `open`, `openReadOnly` respectively, with the schema set for the
two create modes and left out for the other two. -/
theorem loadBase_mode_dispatch (normalize : String → String) (schema : Schema)
    (params : RecommendParams) :
    ((∃ e, (x5recommend._loadBase normalize schema params).result = .error e) ↔
      params.mode ∉ supportedModes) ∧
    (params.mode ∉ supportedModes →
      (x5recommend._loadBase normalize schema params).result
        = .error ("Value of parameter 'mode' is not supported: " ++ jsString params.mode)) ∧
    (params.mode = some "create" →
      (x5recommend._loadBase normalize schema params).result
        = .ok { dbPath := normalize params.path, indexCache := 10000, storeCache := 10000,
                mode := some "create", schema := some schema }) ∧
    (params.mode = some "createClean" →
      (x5recommend._loadBase normalize schema params).result
        = .ok { dbPath := normalize params.path, indexCache := 10000, storeCache := 10000,
                mode := some "createClean", schema := some schema }) ∧
    (params.mode = some "open" →
      (x5recommend._loadBase normalize schema params).result
        = .ok { dbPath := normalize params.path, indexCache := 10000, storeCache := 10000,
                mode := some "open", schema := none }) ∧
    (params.mode = some "readOnly" →
      (x5recommend._loadBase normalize schema params).result
        = .ok { dbPath := normalize params.path, indexCache := 10000, storeCache := 10000,
                mode := some "openReadOnly", schema := none }) := by
  refine ⟨?_, ?_, ?_, ?_, ?_, ?_⟩
  · by_cases h1 : params.mode = some "create"
    · simp [x5recommend._loadBase, supportedModes, h1]
    · by_cases h2 : params.mode = some "createClean"
      · simp [x5recommend._loadBase, supportedModes, h2]
      · by_cases h3 : params.mode = some "open"
        · simp [x5recommend._loadBase, supportedModes, h3]
        · by_cases h4 : params.mode = some "readOnly"
          · simp [x5recommend._loadBase, supportedModes, h4]
          · simp [x5recommend._loadBase, supportedModes, h1, h2, h3, h4]
  · intro h
    simp only [supportedModes, List.mem_cons, List.mem_singleton, List.not_mem_nil,
      or_false, not_or] at h
    simp [x5recommend._loadBase, h.1, h.2.1, h.2.2.1, h.2.2.2]
  · intro h; simp [x5recommend._loadBase, h]
  · intro h; simp [x5recommend._loadBase, h]
  · intro h; simp [x5recommend._loadBase, h]
  · intro h; simp [x5recommend._loadBase, h]

/-- C20: with the model loaded, for every query object whose url is present and not
empty, whatever its title and description, `recommendContent` returns normally and calls
the search exactly once, with the url string alone; when the url is absent or empty and
the title or the description is present and not empty, it calls the search exactly once,
with the whole query object. -/
theorem recommendContent_url_has_priority {ω : Type}
    (search : SearchQuery → List ContentRecord × List ω) (q : QueryObject) :
    (∀ u, q.url = some u → u ≠ "" →
      (∃ o, x5recommend.recommendContent (some search) q = .ok o) ∧
      searchCalls (x5recommend.recommendContent (some search) q) = [SearchQuery.url u]) ∧
    ((q.url = none ∨ q.url = some "") →
      ((∃ t, q.title = some t ∧ t ≠ "") ∨ (∃ d, q.description = some d ∧ d ≠ "")) →
      (∃ o, x5recommend.recommendContent (some search) q = .ok o) ∧
      searchCalls (x5recommend.recommendContent (some search) q) = [SearchQuery.object q]) := by
  constructor
  · intro u hu hne
    simp [x5recommend.recommendContent, searchCalls, truthy, hu, hne]
  · intro hurl hrest
    have hu : truthy q.url = false := by
      rcases hurl with h | h <;> simp [truthy, h]
    have hr : (truthy q.title || truthy q.description) = true := by
      rcases hrest with ⟨t, ht, hne⟩ | ⟨d, hd, hne⟩
      · simp [truthy, ht, hne]
      · simp [truthy, hd, hne]
    have hc : (truthy q.url || truthy q.title || truthy q.description) = true := by
      rw [Bool.or_assoc, hu, Bool.false_or, hr]
    unfold x5recommend.recommendContent
    rw [if_pos hc]
    rcases hurl with h | h <;> simp [searchCalls, h]

/-- C21: for every query object whose url, title and description are each absent or
empty, with or without a loaded model, `recommendContent` returns the object
`{ error: "Unsupported recommendation parameters" }`, logs the error once and does not
call the search. -/
theorem recommendContent_unsupported {ω : Type}
    (contentNN : Option (SearchQuery → List ContentRecord × List ω)) (q : QueryObject)
    (hurl : q.url = none ∨ q.url = some "")
    (htitle : q.title = none ∨ q.title = some "")
    (hdescription : q.description = none ∨ q.description = some "") :
    (∃ o, x5recommend.recommendContent contentNN q = .ok o ∧
      o.result = Recommendations.error "Unsupported recommendation parameters" ∧
      o.searched = [] ∧
      o.logged
        = ["error [x5recommend.recommendContent]: Unsupported recommendation parameters"]) ∧
    searchCalls (x5recommend.recommendContent contentNN q) = [] := by
  have hu : truthy q.url = false := by rcases hurl with h | h <;> simp [truthy, h]
  have ht : truthy q.title = false := by rcases htitle with h | h <;> simp [truthy, h]
  have hd : truthy q.description = false := by
    rcases hdescription with h | h <;> simp [truthy, h]
  simp [x5recommend.recommendContent, searchCalls, hu, ht, hd]

theorem recommendContent_unsupported_witness :
    (emptyQuery.url = none ∨ emptyQuery.url = some "") ∧
    (emptyQuery.title = none ∨ emptyQuery.title = some "") ∧
    (emptyQuery.description = none ∨ emptyQuery.description = some "") ∧
    ((∃ o, x5recommend.recommendContent (some sampleSearch) emptyQuery = .ok o ∧
        o.result = Recommendations.error "Unsupported recommendation parameters" ∧
        o.searched = [] ∧
        o.logged
          = ["error [x5recommend.recommendContent]: Unsupported recommendation parameters"]) ∧
      searchCalls (x5recommend.recommendContent (some sampleSearch) emptyQuery) = []) :=
  ⟨Or.inl rfl, Or.inr rfl, Or.inl rfl,
   recommendContent_unsupported (some sampleSearch) emptyQuery (Or.inl rfl) (Or.inr rfl)
     (Or.inl rfl)⟩

/-- C22: for every supported query (url, title or description present and not empty),
with the model loaded, `recommendContent` calls the search once and returns an array with
one entry per material of the search result, in the same order; entry `i` is made of the
`i`-th weight of the search result and the link, title, description and provider of the
`i`-th material, and of nothing else. -/
theorem recommendContent_maps_results {ω : Type}
    (search : SearchQuery → List ContentRecord × List ω) (q : QueryObject)
    (hsup : truthy q.url = true ∨ truthy q.title = true ∨ truthy q.description = true) :
    ∃ query items,
      x5recommend.recommendContent (some search) q
        = .ok { searched := [query], logged := [], result := Recommendations.list items } ∧
      items.length = (search query).1.length ∧
      ∀ i m, (search query).1.get? i = some m →
        items.get? i
          = some { weight := (search query).2.get? i, link := m.link, title := m.title,
                   description := m.description, provider := m.provider } := by
  have hc : (truthy q.url || truthy q.title || truthy q.description) = true := by
    rcases hsup with h | h | h <;> simp [h]
  unfold x5recommend.recommendContent
  rw [if_pos hc]
  refine ⟨_, _, rfl, by simp, ?_⟩
  intro i m hm
  simp only [List.get?_eq_getElem?, bne_iff_ne, ne_eq, ite_not] at hm
  simp [List.get?_eq_getElem?, List.getElem?_map, List.getElem?_enum, hm]

theorem recommendContent_maps_results_witness :
    (truthy (QueryObject.mk (some "http://x.edu/v0") none (some "x")).url = true ∨
      truthy (QueryObject.mk (some "http://x.edu/v0") none (some "x")).title = true ∨
      truthy (QueryObject.mk (some "http://x.edu/v0") none (some "x")).description = true) ∧
    ∃ query items,
      x5recommend.recommendContent (some sampleSearch)
          (QueryObject.mk (some "http://x.edu/v0") none (some "x"))
        = .ok { searched := [query], logged := [], result := Recommendations.list items } ∧
      items.length = (sampleSearch query).1.length ∧
      ∀ i m, (sampleSearch query).1.get? i = some m →
        items.get? i
          = some { weight := (sampleSearch query).2.get? i, link := m.link, title := m.title,
                   description := m.description, provider := m.provider } :=
  ⟨Or.inl (by decide),
   recommendContent_maps_results sampleSearch
     (QueryObject.mk (some "http://x.edu/v0") none (some "x")) (Or.inl (by decide))⟩

/-! ## `updateTables` -/

theorem consecutiveFrom_bounds (k : Int) (us : List DbUpdate) (h : consecutiveFrom k us) :
    ∀ u ∈ us, k < u.version ∧ u.version ≤ k + us.length := by
  induction us generalizing k with
  | nil => intro u hu; cases hu
  | cons a as ih =>
    obtain ⟨ha, has⟩ := h
    intro u hu
    rcases List.mem_cons.mp hu with rfl | hmem
    · simp only [List.length_cons, Nat.cast_add, Nat.cast_one]; omega
    · have := ih (k + 1) has u hmem
      simp only [List.length_cons, Nat.cast_add, Nat.cast_one]; omega

theorem updateDatabaseTables_skipped (execute : Executor) (vGoal : Int) (st : UpdateState)
    (u : DbUpdate) (h : ¬ (st.vCurrent < u.version ∧ u.version ≤ vGoal)) :
    updateDatabaseTables execute vGoal st u.version u.update = (st, none) := by
  simp only [updateDatabaseTables, if_neg h]

theorem eachSeriesUpdates_run (execute : Executor) (vGoal : Int) (us : List DbUpdate) :
    ∀ (k c : Int) (hist : List Statement), consecutiveFrom k us → (k ≤ c ∨ vGoal ≤ c) →
      (eachSeriesUpdates execute vGoal { vCurrent := c, executed := hist } us).1.executed
        = (runStatements execute hist
            ((us.filter (fun u => decide (c < u.version ∧ u.version ≤ vGoal))).map
              statementsFor).flatten).1 ∧
      (eachSeriesUpdates execute vGoal { vCurrent := c, executed := hist } us).2
        = (runStatements execute hist
            ((us.filter (fun u => decide (c < u.version ∧ u.version ≤ vGoal))).map
              statementsFor).flatten).2 ∧
      ((runStatements execute hist
            ((us.filter (fun u => decide (c < u.version ∧ u.version ≤ vGoal))).map
              statementsFor).flatten).2 = none →
        (eachSeriesUpdates execute vGoal { vCurrent := c, executed := hist } us).1.vCurrent
          = max c (min vGoal (k + us.length))) := by
  induction us with
  | nil =>
    intro k c hist _ hinv
    refine ⟨rfl, rfl, ?_⟩
    intro _
    simp only [eachSeriesUpdates, List.length_nil, Nat.cast_zero]
    omega
  | cons u us ih =>
    intro k c hist hcons hinv
    obtain ⟨hu, hrest⟩ := hcons
    have hb := consecutiveFrom_bounds (k + 1) us hrest
    by_cases happ : c < u.version ∧ u.version ≤ vGoal
    · have hck : c = k := by omega
      have hfilter : us.filter (fun x => decide (c + 1 < x.version ∧ x.version ≤ vGoal))
          = us.filter (fun x => decide (c < x.version ∧ x.version ≤ vGoal)) := by
        apply List.filter_congr
        intro x hx
        have := hb x hx
        have h1 : c + 1 < x.version := by omega
        have h2 : c < x.version := by omega
        simp [h1, h2]
      have hmax : max (c + 1) (min vGoal (k + 1 + (us.length : Int)))
          = max c (min vGoal (k + ((u :: us).length : Int))) := by
        simp only [List.length_cons, Nat.cast_add, Nat.cast_one]; omega
      have hv : u.version - 1 = c := by omega
      have hE : ((u :: us).filter (fun x => decide (c < x.version ∧ x.version ≤ vGoal))).map
            statementsFor
          = statementsFor u ::
            (us.filter (fun x => decide (c < x.version ∧ x.version ≤ vGoal))).map
              statementsFor := by
        simp [List.filter_cons, happ]
      rw [hE, List.flatten_cons]
      by_cases hs : u.update = ""
      · cases h1 : execute hist (versionStatement c) with
        | some e =>
          simp [eachSeriesUpdates, updateDatabaseTables, updateDatabaseVersion, happ, hs,
            statementsFor, hv, runStatements, h1]
        | none =>
          have ih2 := ih (k + 1) (c + 1) (hist ++ [versionStatement c]) hrest
            (Or.inl (by omega))
          rw [hfilter, hmax] at ih2
          simpa [eachSeriesUpdates, updateDatabaseTables, updateDatabaseVersion, happ, hs,
            statementsFor, hv, runStatements, h1] using ih2
      · cases h1 : execute hist (Statement.update u.update) with
        | some e =>
          simp [eachSeriesUpdates, updateDatabaseTables, updateDatabaseVersion, happ, hs,
            statementsFor, hv, runStatements, h1]
        | none =>
          cases h2 : execute (hist ++ [Statement.update u.update]) (versionStatement c) with
          | some e =>
            simp [eachSeriesUpdates, updateDatabaseTables, updateDatabaseVersion, happ, hs,
              statementsFor, hv, runStatements, h1, h2]
          | none =>
            have ih2 := ih (k + 1) (c + 1)
              (hist ++ [Statement.update u.update] ++ [versionStatement c]) hrest
              (Or.inl (by omega))
            rw [hfilter, hmax] at ih2
            simpa [eachSeriesUpdates, updateDatabaseTables, updateDatabaseVersion, happ, hs,
              statementsFor, hv, runStatements, h1, h2] using ih2
    · have hmax : max c (min vGoal (k + 1 + (us.length : Int)))
          = max c (min vGoal (k + ((u :: us).length : Int))) := by
        simp only [List.length_cons, Nat.cast_add, Nat.cast_one]; omega
      have ih2 := ih (k + 1) c hist hrest (by omega)
      rw [hmax] at ih2
      have hE : (u :: us).filter (fun x => decide (c < x.version ∧ x.version ≤ vGoal))
          = us.filter (fun x => decide (c < x.version ∧ x.version ≤ vGoal)) := by
        simp [List.filter_cons, happ]
      rw [hE]
      simpa only [eachSeriesUpdates,
        updateDatabaseTables_skipped execute vGoal { vCurrent := c, executed := hist } u happ]
        using ih2

theorem runStatements_resolved (execute : Executor) (todo : List Statement) :
    ∀ hist : List Statement, (runStatements execute hist todo).2 = none →
      (runStatements execute hist todo).1 = hist ++ todo ∧
      ∀ done st rest, todo = done ++ st :: rest → execute (hist ++ done) st = none := by
  induction todo with
  | nil =>
    intro hist _
    refine ⟨by simp [runStatements], ?_⟩
    intro done st rest h
    simp at h
  | cons s ss ih =>
    intro hist h
    cases hs : execute hist s with
    | some e => simp [runStatements, hs] at h
    | none =>
      simp only [runStatements, hs] at h ⊢
      obtain ⟨h1, h2⟩ := ih _ h
      refine ⟨by simp [h1], ?_⟩
      intro done st rest hsplit
      cases done with
      | nil =>
        simp only [List.nil_append, List.cons.injEq] at hsplit
        simpa [hsplit.1] using hs
      | cons d ds =>
        simp only [List.cons_append, List.cons.injEq] at hsplit
        have := h2 ds st rest hsplit.2
        simpa [hsplit.1] using this

theorem runStatements_rejected (execute : Executor) (todo : List Statement) :
    ∀ (hist : List Statement) (e : PgError), (runStatements execute hist todo).2 = some e →
      ∃ done st rest, todo = done ++ st :: rest ∧
        (runStatements execute hist todo).1 = hist ++ (done ++ [st]) ∧
        execute (hist ++ done) st = some e ∧
        ∀ d1 s1 d2, done = d1 ++ s1 :: d2 → execute (hist ++ d1) s1 = none := by
  induction todo with
  | nil => intro hist e h; simp [runStatements] at h
  | cons s ss ih =>
    intro hist e h
    cases hs : execute hist s with
    | some e2 =>
      simp only [runStatements, hs, Option.some.injEq] at h ⊢
      refine ⟨[], s, ss, rfl, by simp, by simpa [h] using hs, ?_⟩
      intro d1 s1 d2 hsplit
      simp at hsplit
    | none =>
      simp only [runStatements, hs] at h ⊢
      obtain ⟨done, st, rest, h1, h2, h3, h4⟩ := ih _ e h
      refine ⟨s :: done, st, rest, by simp [h1], by simp [h2], by simpa using h3, ?_⟩
      intro d1 s1 d2 hsplit
      cases d1 with
      | nil =>
        simp only [List.nil_append, List.cons.injEq] at hsplit
        simpa [hsplit.1] using hs
      | cons d ds =>
        simp only [List.cons_append, List.cons.injEq] at hsplit
        have := h4 ds s1 d2 hsplit.2
        simpa [hsplit.1] using this

theorem foldl_max_ge (l : List Int) (init : Int) :
    init ≤ l.foldl (fun prev curr => max prev curr) init := by
  induction l generalizing init with
  | nil => exact le_refl _
  | cons a as ih => exact le_trans (le_max_left init a) (ih (max init a))

theorem updateTables_run (execute : Executor) (dbUpdates : List DbUpdate) (vGoal : Int)
    (stored : List Int) (hcons : consecutiveFrom 0 dbUpdates) :
    (updateTables execute dbUpdates vGoal (.ok stored)).executed
      = (runStatements execute [Statement.checkVersion]
          ((appliedUpdates (stored.foldl (fun prev curr => max prev curr) 0) vGoal
            dbUpdates).map statementsFor).flatten).1 ∧
    (updateTables execute dbUpdates vGoal (.ok stored)).rejected
      = (runStatements execute [Statement.checkVersion]
          ((appliedUpdates (stored.foldl (fun prev curr => max prev curr) 0) vGoal
            dbUpdates).map statementsFor).flatten).2 ∧
    ((updateTables execute dbUpdates vGoal (.ok stored)).rejected = none →
      (updateTables execute dbUpdates vGoal (.ok stored)).vCurrent
        = max (stored.foldl (fun prev curr => max prev curr) 0)
            (min vGoal (dbUpdates.length : Int))) := by
  have hv : (if stored.length > 0 then stored.foldl (fun prev curr => max prev curr) 0 else 0)
      = stored.foldl (fun prev curr => max prev curr) 0 := by
    cases stored with
    | nil => rfl
    | cons a as => simp
  have h0 := foldl_max_ge stored 0
  have hb := consecutiveFrom_bounds 0 dbUpdates hcons
  have hfilter : appliedUpdates (stored.foldl (fun prev curr => max prev curr) 0) vGoal dbUpdates
      = dbUpdates.filter (fun u =>
        decide (stored.foldl (fun prev curr => max prev curr) 0 < u.version ∧
          u.version ≤ vGoal)) := by
    unfold appliedUpdates
    apply List.filter_congr
    intro x hx
    have := hb x hx
    congr 1
    apply propext
    constructor
    · rintro ⟨h1, h2⟩; exact ⟨h1, by omega⟩
    · rintro ⟨h1, h2⟩; exact ⟨h1, by omega⟩
  obtain ⟨h1, h2, h3⟩ := eachSeriesUpdates_run execute vGoal dbUpdates 0
    (stored.foldl (fun prev curr => max prev curr) 0) [Statement.checkVersion] hcons (Or.inl h0)
  rw [hfilter]
  simp only [updateTables, hv]
  refine ⟨h1, h2, ?_⟩
  intro hres
  rw [h2] at hres
  simpa using h3 hres

/-- C23: let `dbUpdates` carry the versions 1, 2, ..., n in this order, let `v0` be the
stored version (the largest stored one, 0 when there is none), and let `todo` be the
statements of the updates whose version lies in `(v0, min(vGoal, n)]`, in the order of
`dbUpdates`: for each of them its SQL (unless empty) followed by the statement raising
the stored version from `version - 1` to `version`.  For every behaviour of `pg.execute`:
when `updateTables` resolves, it has executed the version query and then exactly `todo`,
every one of these statements succeeded, and the current version is
`max(v0, min(vGoal, n))`; when it rejects with `e`, it has executed `todo` up to and
including one statement, which failed with `e`, after all earlier ones succeeded, and
nothing after it; and it resolves whenever no statement of `todo` fails.  (`v0 ≤ n` is
not needed.)  Last, one run that fails: of three updates, with nothing stored and goal 3,
the second version statement fails; the run rejects with that error at version 1 and the
third update is not executed. -/
theorem updateTables_applies_range (execute : Executor) (dbUpdates : List DbUpdate)
    (vGoal : Int) (stored : List Int)
    (hcons : consecutiveFrom 0 dbUpdates) :
    ((updateTables execute dbUpdates vGoal (.ok stored)).rejected = none →
      (updateTables execute dbUpdates vGoal (.ok stored)).executed
        = Statement.checkVersion :: ((appliedUpdates (stored.foldl (fun prev curr => max prev curr) 0) vGoal
              dbUpdates).map statementsFor).flatten ∧
      (updateTables execute dbUpdates vGoal (.ok stored)).vCurrent
        = max (stored.foldl (fun prev curr => max prev curr) 0)
            (min vGoal (dbUpdates.length : Int)) ∧
      ∀ done st rest, ((appliedUpdates (stored.foldl (fun prev curr => max prev curr) 0) vGoal
              dbUpdates).map statementsFor).flatten = done ++ st :: rest →
        execute (Statement.checkVersion :: done) st = none) ∧
    (∀ e, (updateTables execute dbUpdates vGoal (.ok stored)).rejected = some e →
      ∃ done st rest, ((appliedUpdates (stored.foldl (fun prev curr => max prev curr) 0) vGoal
              dbUpdates).map statementsFor).flatten = done ++ st :: rest ∧
        (updateTables execute dbUpdates vGoal (.ok stored)).executed
          = Statement.checkVersion :: (done ++ [st]) ∧
        execute (Statement.checkVersion :: done) st = some e ∧
        ∀ d1 s1 d2, done = d1 ++ s1 :: d2 →
          execute (Statement.checkVersion :: d1) s1 = none) ∧
    ((∀ done st rest, ((appliedUpdates (stored.foldl (fun prev curr => max prev curr) 0) vGoal
              dbUpdates).map statementsFor).flatten = done ++ st :: rest →
        execute (Statement.checkVersion :: done) st = none) →
      (updateTables execute dbUpdates vGoal (.ok stored)).rejected = none) ∧
    updateTables (failsOn (Statement.setVersion 1) "boom") sampleUpdates 3 (.ok [])
      = { vCurrent := 1,
          executed := [Statement.checkVersion,
            Statement.update "ALTER TABLE a ADD COLUMN x integer;",
            Statement.insertVersion, Statement.setVersion 1],
          rejected := some { message := some "boom" } } := by
  obtain ⟨hex, hrej, hcur⟩ := updateTables_run execute dbUpdates vGoal stored hcons
  refine ⟨?_, ?_, ?_, by decide⟩
  · intro hres
    have hres2 := hres
    rw [hrej] at hres2
    obtain ⟨h1, h2⟩ := runStatements_resolved execute _ _ hres2
    refine ⟨by rw [hex, h1]; rfl, hcur hres, ?_⟩
    intro done st rest hsplit
    simpa using h2 done st rest hsplit
  · intro e hres
    rw [hrej] at hres
    obtain ⟨done, st, rest, h1, h2, h3, h4⟩ := runStatements_rejected execute _ _ e hres
    refine ⟨done, st, rest, h1, by rw [hex, h2]; rfl, by simpa using h3, ?_⟩
    intro d1 s1 d2 hsplit
    simpa using h4 d1 s1 d2 hsplit
  · intro hall
    rw [hrej]
    cases hr : (runStatements execute [Statement.checkVersion] ((appliedUpdates (stored.foldl (fun prev curr => max prev curr) 0) vGoal
              dbUpdates).map statementsFor).flatten).2 with
    | none => rfl
    | some e =>
      obtain ⟨done, st, rest, h1, _, h3, _⟩ := runStatements_rejected execute _ _ e hr
      have := hall done st rest h1
      simp only [List.singleton_append] at h3
      rw [h3] at this
      cases this

theorem updateTables_applies_range_witness :
    consecutiveFrom 0 sampleUpdates ∧
    (((updateTables allSucceed sampleUpdates 2 (.ok [1])).rejected = none →
      (updateTables allSucceed sampleUpdates 2 (.ok [1])).executed
        = Statement.checkVersion :: ((appliedUpdates (([1] : List Int).foldl (fun prev curr => max prev curr) 0) 2
              sampleUpdates).map statementsFor).flatten ∧
      (updateTables allSucceed sampleUpdates 2 (.ok [1])).vCurrent
        = max (([1] : List Int).foldl (fun prev curr => max prev curr) 0)
            (min 2 (sampleUpdates.length : Int)) ∧
      ∀ done st rest, ((appliedUpdates (([1] : List Int).foldl (fun prev curr => max prev curr) 0) 2
              sampleUpdates).map statementsFor).flatten = done ++ st :: rest →
        allSucceed (Statement.checkVersion :: done) st = none) ∧
    (∀ e, (updateTables allSucceed sampleUpdates 2 (.ok [1])).rejected = some e →
      ∃ done st rest, ((appliedUpdates (([1] : List Int).foldl (fun prev curr => max prev curr) 0) 2
              sampleUpdates).map statementsFor).flatten = done ++ st :: rest ∧
        (updateTables allSucceed sampleUpdates 2 (.ok [1])).executed
          = Statement.checkVersion :: (done ++ [st]) ∧
        allSucceed (Statement.checkVersion :: done) st = some e ∧
        ∀ d1 s1 d2, done = d1 ++ s1 :: d2 →
          allSucceed (Statement.checkVersion :: d1) s1 = none) ∧
    ((∀ done st rest, ((appliedUpdates (([1] : List Int).foldl (fun prev curr => max prev curr) 0) 2
              sampleUpdates).map statementsFor).flatten = done ++ st :: rest →
        allSucceed (Statement.checkVersion :: done) st = none) →
      (updateTables allSucceed sampleUpdates 2 (.ok [1])).rejected = none) ∧
    updateTables (failsOn (Statement.setVersion 1) "boom") sampleUpdates 3 (.ok [])
      = { vCurrent := 1,
          executed := [Statement.checkVersion,
            Statement.update "ALTER TABLE a ADD COLUMN x integer;",
            Statement.insertVersion, Statement.setVersion 1],
          rejected := some { message := some "boom" } }) :=
  ⟨⟨rfl, rfl, rfl, trivial⟩,
   updateTables_applies_range allSucceed sampleUpdates 2 [1] ⟨rfl, rfl, rfl, trivial⟩⟩

/-! ## `prepareTables` -/

theorem delete_existing (result : List String) (dbCreates : List (String × String)) :
    result.foldl (fun creates tableName => creates.filter (fun kv => kv.1 != tableName))
        dbCreates
      = dbCreates.filter (fun kv => decide (kv.1 ∉ result)) := by
  induction result generalizing dbCreates with
  | nil => simp
  | cons t ts ih =>
    rw [List.foldl_cons, ih, List.filter_filter]
    apply List.filter_congr
    intro kv _
    by_cases h1 : kv.1 = t <;> by_cases h2 : kv.1 ∈ ts <;> simp [h1, h2]

theorem eachSeriesCreates_resolved (execute : Executor) (todo : List String) :
    ∀ hist : List Statement, (eachSeriesCreates execute hist todo).2 = none →
      (eachSeriesCreates execute hist todo).1 = hist ++ todo.map Statement.create ∧
      ∀ done sql rest, todo = done ++ sql :: rest →
        execute (hist ++ done.map Statement.create) (Statement.create sql) = none := by
  induction todo with
  | nil =>
    intro hist _
    refine ⟨by simp [eachSeriesCreates], ?_⟩
    intro done sql rest h
    simp at h
  | cons s ss ih =>
    intro hist h
    cases hs : execute hist (Statement.create s) with
    | some e => simp [eachSeriesCreates, hs] at h
    | none =>
      simp only [eachSeriesCreates, hs] at h ⊢
      obtain ⟨h1, h2⟩ := ih _ h
      refine ⟨by simp [h1], ?_⟩
      intro done sql rest hsplit
      cases done with
      | nil =>
        simp only [List.nil_append, List.cons.injEq] at hsplit
        simpa [hsplit.1] using hs
      | cons d ds =>
        simp only [List.cons_append, List.cons.injEq] at hsplit
        have := h2 ds sql rest hsplit.2
        simpa [hsplit.1] using this

theorem eachSeriesCreates_rejected (execute : Executor) (todo : List String) :
    ∀ (hist : List Statement) (e : PgError), (eachSeriesCreates execute hist todo).2 = some e →
      ∃ done sql rest, todo = done ++ sql :: rest ∧
        (eachSeriesCreates execute hist todo).1
          = hist ++ (done ++ [sql]).map Statement.create ∧
        execute (hist ++ done.map Statement.create) (Statement.create sql) = some e ∧
        ∀ d1 s1 d2, done = d1 ++ s1 :: d2 →
          execute (hist ++ d1.map Statement.create) (Statement.create s1) = none := by
  induction todo with
  | nil => intro hist e h; simp [eachSeriesCreates] at h
  | cons s ss ih =>
    intro hist e h
    cases hs : execute hist (Statement.create s) with
    | some e2 =>
      simp only [eachSeriesCreates, hs, Option.some.injEq] at h ⊢
      refine ⟨[], s, ss, rfl, by simp, by simpa [h] using hs, ?_⟩
      intro d1 s1 d2 hsplit
      simp at hsplit
    | none =>
      simp only [eachSeriesCreates, hs] at h ⊢
      obtain ⟨done, sql, rest, h1, h2, h3, h4⟩ := ih _ e h
      refine ⟨s :: done, sql, rest, by simp [h1], by simp [h2], by simpa using h3, ?_⟩
      intro d1 s1 d2 hsplit
      cases d1 with
      | nil =>
        simp only [List.nil_append, List.cons.injEq] at hsplit
        simpa [hsplit.1] using hs
      | cons d ds =>
        simp only [List.cons_append, List.cons.injEq] at hsplit
        have := h4 ds s1 d2 hsplit.2
        simpa [hsplit.1] using this

/-- C24: let `todo` be the create statements of the entries of `dbCreates`, in key order,
whose table name is not among the names reported by the tables query.  `prepareTables`
executes the statements of `todo` one after the other, in this order.  When it resolves,
it has executed all of `todo` and every one of them succeeded.  When it rejects with `e`,
it has executed `todo` up to and including one statement, that statement failed with `e`,
every statement before it succeeded, and nothing after it was executed. -/
theorem prepareTables_creates_missing (execute : Executor)
    (dbCreates : List (String × String)) (result : List String) :
    ((prepareTables execute dbCreates (.ok result)).rejected = none →
      (prepareTables execute dbCreates (.ok result)).executed
        = Statement.tablesExist ::
            ((dbCreates.filter (fun kv => decide (kv.1 ∉ result))).map
              (fun kv => Statement.create kv.2)) ∧
      ∀ done sql rest,
        (dbCreates.filter (fun kv => decide (kv.1 ∉ result))).map (fun kv => kv.2)
          = done ++ sql :: rest →
        execute (Statement.tablesExist :: done.map Statement.create) (Statement.create sql)
          = none) ∧
    (∀ e, (prepareTables execute dbCreates (.ok result)).rejected = some e →
      ∃ done sql rest,
        (dbCreates.filter (fun kv => decide (kv.1 ∉ result))).map (fun kv => kv.2)
          = done ++ sql :: rest ∧
        (prepareTables execute dbCreates (.ok result)).executed
          = Statement.tablesExist :: (done ++ [sql]).map Statement.create ∧
        execute (Statement.tablesExist :: done.map Statement.create) (Statement.create sql)
          = some e ∧
        ∀ d1 s1 d2, done = d1 ++ s1 :: d2 →
          execute (Statement.tablesExist :: d1.map Statement.create) (Statement.create s1)
            = none) := by
  constructor
  · intro h
    simp only [prepareTables, delete_existing] at h ⊢
    obtain ⟨h1, h2⟩ := eachSeriesCreates_resolved execute _ _ h
    refine ⟨by rw [h1]; simp, ?_⟩
    intro done sql rest hsplit
    simpa using h2 done sql rest hsplit
  · intro e h
    simp only [prepareTables, delete_existing] at h ⊢
    obtain ⟨done, sql, rest, h1, h2, h3, h4⟩ := eachSeriesCreates_rejected execute _ _ e h
    refine ⟨done, sql, rest, h1, by rw [h2]; simp, by simpa using h3, ?_⟩
    intro d1 s1 d2 hsplit
    simpa using h4 d1 s1 d2 hsplit

/-! ## The list handler of `oer_materials` -/

/-- C25: for every requested limit (absent, `NaN`, or any integer), the limit of the list
handler is the requested value when it is an integer between 1 and 100, and the default
20 in every other case (above 100 it is 20 as well, not 100); so it always lies between
1 and 100. -/
theorem handlerLimit_spec (queryLimit : QueryInt) :
    (∀ n : Int, queryLimit = QueryInt.int n → 1 ≤ n → n ≤ 100 → handlerLimit queryLimit = n) ∧
    ((¬ ∃ n : Int, queryLimit = QueryInt.int n ∧ 1 ≤ n ∧ n ≤ 100) →
      handlerLimit queryLimit = 20) ∧
    handlerLimit (QueryInt.int 101) = 20 ∧
    (1 ≤ handlerLimit queryLimit ∧ handlerLimit queryLimit ≤ 100) := by
  cases queryLimit with
  | absent => simp [handlerLimit, QueryInt.not, DEFAULT_LIMIT, MAX_LIMIT]
  | nan => simp [handlerLimit, QueryInt.not, DEFAULT_LIMIT, MAX_LIMIT]
  | int k =>
    refine ⟨?_, ?_, by decide, ?_⟩
    · intro n hn h1 h2
      cases hn
      have h0 : ¬ k = 0 := by omega
      have h3 : ¬ k ≤ 0 := by omega
      have h4 : ¬ k > 100 := by omega
      simp [handlerLimit, QueryInt.not, MAX_LIMIT, h0, h3, h4]
    · intro h
      have hk : ¬ (1 ≤ k ∧ k ≤ 100) := fun hk => h ⟨k, rfl, hk⟩
      simp only [handlerLimit, QueryInt.not, DEFAULT_LIMIT, MAX_LIMIT]
      split_ifs <;> first | rfl | omega
    · simp only [handlerLimit, QueryInt.not, DEFAULT_LIMIT, MAX_LIMIT]
      split_ifs <;> omega

theorem numberPlaceholders_eq {α : Type} (values : List α) (count : Nat) :
    numberPlaceholders count values
      = (List.range' count values.length, count + values.length) := by
  induction values generalizing count with
  | nil => simp [numberPlaceholders]
  | cons v vs ih =>
    simp only [numberPlaceholders, ih, List.length_cons, List.range'_succ]
    congr 1
    omega

theorem range_split (s a b : Nat) :
    List.range' s (a + b) = List.range' s a ++ List.range' (s + a) b := by
  rw [List.range'_append_1, Nat.add_comm]

set_option maxRecDepth 100000 in
theorem fixed_text_has_no_placeholder :
    (queryHeadLines ++ queryTailLines).all (fun line => line.toList.all (fun c => c != '$'))
      = true := by
  decide

/-! ## The text built by `oerMaterialQuery` -/

theorem append_eq_self_iff (a t : String) : a ++ t = a ↔ t = "" := by
  constructor
  · intro h
    have h2 := congrArg String.data h
    rw [String.data_append] at h2
    have h3 : t.data = [] := by simpa using h2
    exact String.ext h3
  · intro h; subst h; simp

theorem inCondition_ne_empty (column : String) (first count : Nat) :
    inCondition column first count ≠ "" := by
  intro h
  have h2 := congrArg String.data h
  simp [inCondition, String.data_append] at h2

theorem renderLine_eq (line : Option ClauseItem) :
    renderLine line = clauseIndent ++ lineText line := by
  cases line <;> rfl

theorem filter_indented (ts : List String) :
    (ts.map (fun t => clauseIndent ++ t)).filter (fun line => decide (line ≠ clauseIndent))
      = (ts.filter (fun t => decide (t ≠ ""))).map (fun t => clauseIndent ++ t) := by
  induction ts with
  | nil => rfl
  | cons t ts ih =>
    by_cases ht : t = ""
    · simpa [List.filter_cons, append_eq_self_iff, ht] using ih
    · simpa [List.filter_cons, append_eq_self_iff, ht] using ih

theorem filterLines_text (params : QueryParams) :
    (filterLines params).map renderLine
      = ((filterLines params).map lineText).map (fun t => clauseIndent ++ t) := by
  simp [renderLine_eq]

theorem render_inList (column : String) (first count : Nat) :
    (ClauseItem.inList column (List.range' first count)).render
      = inCondition column first count := rfl

theorem render_whereKw : ClauseItem.whereKw.render = "WHERE" := rfl

theorem render_andKw : ClauseItem.andKw.render = "AND" := rfl

theorem clause_contents (params : QueryParams) :
    ((filterLines params).map lineText).filter (fun t => decide (t ≠ ""))
      = expectedClause params := by
  obtain ⟨m, p, l, lim, off⟩ := params
  cases m <;> cases p <;> cases l <;>
    simp [filterLines, lineText, numberPlaceholders_eq, render_inList, render_whereKw,
      render_andKw, expectedClause, conditionTexts, valuesOf, inCondition_ne_empty,
      List.filter_cons, List.intersperse]

/-- C26: for every combination of null and non-null filters.  Text: `oerMaterialQuery`
returns the fixed head, the six filter lines, a blank line, the two paging lines and the
fixed tail; the second, fourth and sixth filter line are, behind the indentation, the
IN-list of the material ids with `$1, ..., $a`, that of the provider ids with
`$a+1, ..., $a+b`, that of the languages with `$a+b+1, ..., $a+b+c` (each line empty when
its filter is null); the paging lines are `LIMIT n` and `OFFSET n`; the fixed text holds
no `$`.  Hence the placeholders of the clause are `$1, ..., $n` in this order, each once,
`n` the length of the handler's parameter array, which is the material ids, then the
provider ids, then the languages: the `i`-th placeholder stands in the IN-list of the
filter that supplies the `i`-th parameter. -/
theorem placeholders_match_parameters (params : QueryParams) :
    oerMaterialQuery params
      = "\n".intercalate
          ([""] ++ queryHeadLines ++ (filterLines params).map renderLine ++ [""] ++
            (pagingLines params).map renderLine ++ queryTailLines ++ ["        "]) ∧
    ((filterLines params).map renderLine).get? 1
      = some ("                " ++
          (match params.material_ids with
            | some ids =>
              "URLS.material_id" ++ " IN (" ++
                ",".intercalate ((List.range' 1 ids.length).map (fun n => "$" ++ toString n))
                ++ ")"
            | none => "")) ∧
    ((filterLines params).map renderLine).get? 3
      = some ("                " ++
          (match params.provider_ids with
            | some ids =>
              "URLS.provider_id" ++ " IN (" ++
                ",".intercalate
                  ((List.range' (1 + (valuesOf params.material_ids).length) ids.length).map
                    (fun n => "$" ++ toString n))
                ++ ")"
            | none => "")) ∧
    ((filterLines params).map renderLine).get? 5
      = some ("                " ++
          (match params.languages with
            | some ls =>
              "oer.language" ++ " IN (" ++
                ",".intercalate
                  ((List.range'
                      (1 + (valuesOf params.material_ids).length
                        + (valuesOf params.provider_ids).length) ls.length).map
                    (fun n => "$" ++ toString n))
                ++ ")"
            | none => "")) ∧
    (pagingLines params).map renderLine
      = [ "                " ++
            (match params.limit with
              | some n => "LIMIT " ++ toString n
              | none => ""),
          "                " ++
            (match params.offset with
              | some n => "OFFSET " ++ toString n
              | none => "") ] ∧
    (filterLines fullParams).map renderLine
      = [ "                WHERE",
          "                URLS.material_id IN ($1,$2)",
          "                AND",
          "                URLS.provider_id IN ($3)",
          "                AND",
          "                oer.language IN ($4,$5)" ] ∧
    handlerParameters fullParams.material_ids fullParams.provider_ids fullParams.languages
      = [SqlParam.int 5, SqlParam.int 7, SqlParam.int 3, SqlParam.text "en",
         SqlParam.text "sl"] ∧
    placeholdersOf (filterClause params)
      = List.range' 1
          (handlerParameters params.material_ids params.provider_ids params.languages).length ∧
    handlerParameters params.material_ids params.provider_ids params.languages
      = (valuesOf params.material_ids).map SqlParam.int ++
          (valuesOf params.provider_ids).map SqlParam.int ++
          (valuesOf params.languages).map SqlParam.text ∧
    placeholdersIn "URLS.material_id" (filterClause params)
      = List.range' 1 (valuesOf params.material_ids).length ∧
    placeholdersIn "URLS.provider_id" (filterClause params)
      = List.range' (1 + (valuesOf params.material_ids).length)
          (valuesOf params.provider_ids).length ∧
    placeholdersIn "oer.language" (filterClause params)
      = List.range' (1 + (valuesOf params.material_ids).length
            + (valuesOf params.provider_ids).length)
          (valuesOf params.languages).length ∧
    placeholdersOf ((pagingLines params).filterMap id) = [] ∧
    (queryHeadLines ++ queryTailLines).all (fun line => line.toList.all (fun c => c != '$'))
      = true := by
  obtain ⟨m, p, l, lim, off⟩ := params
  refine ⟨rfl, ?_, ?_, ?_, ?_, by decide, by decide, ?_, ?_, ?_, ?_, ?_, ?_,
    fixed_text_has_no_placeholder⟩
  · cases m <;> cases p <;> cases l <;>
      simp [filterLines, renderLine, ClauseItem.render, numberPlaceholders_eq, valuesOf]
  · cases m <;> cases p <;> cases l <;>
      simp [filterLines, renderLine, ClauseItem.render, numberPlaceholders_eq, valuesOf]
  · cases m <;> cases p <;> cases l <;>
      simp [filterLines, renderLine, ClauseItem.render, numberPlaceholders_eq, valuesOf]
  · cases lim <;> cases off <;> simp [pagingLines, renderLine, ClauseItem.render]
  · cases m <;> cases p <;> cases l <;>
      simp [filterClause, filterLines, numberPlaceholders_eq, placeholdersOf,
        handlerParameters, range_split, -List.range'_append_1, Nat.add_comm,
        Nat.add_left_comm, Nat.add_assoc]
  · cases m <;> cases p <;> cases l <;> simp [handlerParameters, valuesOf]
  · cases m <;> cases p <;> cases l <;>
      simp [filterClause, filterLines, numberPlaceholders_eq, placeholdersIn, valuesOf]
  · cases m <;> cases p <;> cases l <;>
      simp [filterClause, filterLines, numberPlaceholders_eq, placeholdersIn, valuesOf]
  · cases m <;> cases p <;> cases l <;>
      simp [filterClause, filterLines, numberPlaceholders_eq, placeholdersIn, valuesOf]
  · cases lim <;> cases off <;> simp [pagingLines, placeholdersOf]

/-- C27: the filter clause in the text built by `oerMaterialQuery` is six lines behind the
fixed head.  Leaving out the lines that hold only the indentation, what remains is
nothing when all three filters are null, and otherwise the line `WHERE` followed by the
IN-conditions of the filters that are not null with one line `AND` between each two
neighbours; there are as many conditions as filters that are not null, so `k` conditions
and `k - 1` `AND`s, none leading, trailing or doubled; the line `WHERE` is there exactly
when one of `material_ids`, `provider_ids`, `languages` is not null. -/
theorem filter_clause_shape (params : QueryParams) :
    oerMaterialQuery params
      = "\n".intercalate
          ([""] ++ queryHeadLines ++ (filterLines params).map renderLine ++ [""] ++
            (pagingLines params).map renderLine ++ queryTailLines ++ ["        "]) ∧
    ((filterLines params).map renderLine).length = 6 ∧
    ((filterLines params).map renderLine).filter
        (fun line => decide (line ≠ "                "))
      = (match conditionTexts params with
          | [] => []
          | conds => "WHERE" :: conds.intersperse "AND").map
          (fun t => "                " ++ t) ∧
    (conditionTexts params).length = filterCount params ∧
    (("                " ++ "WHERE") ∈ (filterLines params).map renderLine ↔
      (params.material_ids.isSome = true ∨ params.provider_ids.isSome = true ∨
        params.languages.isSome = true)) ∧
    (filterLines sampleParams).map renderLine
      = [ "                WHERE",
          "                URLS.material_id IN ($1,$2)",
          "                AND",
          "                ",
          "                ",
          "                oer.language IN ($3)" ] ∧
    conditionTexts sampleParams = ["URLS.material_id IN ($1,$2)", "oer.language IN ($3)"] ∧
    (ClauseItem.whereKw ∈ filterClause params ↔
      (params.material_ids.isSome = true ∨ params.provider_ids.isSome = true ∨
        params.languages.isSome = true)) ∧
    (conditionsOf (filterClause params)).length = filterCount params ∧
    (filterCount params = 0 → filterClause params = []) ∧
    (1 ≤ filterCount params →
      filterClause params
        = ClauseItem.whereKw ::
            (conditionsOf (filterClause params)).intersperse ClauseItem.andKw) ∧
    ((filterClause params).filter (fun item => item == ClauseItem.andKw)).length
      = filterCount params - 1 := by
  have htext : ((filterLines params).map renderLine).filter
        (fun line => decide (line ≠ "                "))
      = (match conditionTexts params with
          | [] => []
          | conds => "WHERE" :: conds.intersperse "AND").map
          (fun t => "                " ++ t) := by
    have h := filter_indented ((filterLines params).map lineText)
    rw [← filterLines_text, clause_contents] at h
    exact h
  obtain ⟨m, p, l, lim, off⟩ := params
  refine ⟨rfl, by simp [filterLines], htext, ?_, ?_, by decide, by decide, ?_⟩
  · cases m <;> cases p <;> cases l <;> simp [conditionTexts, filterCount]
  · cases m <;> cases p <;> cases l <;>
      simp [filterLines, renderLine, ClauseItem.render]
  · cases m <;> cases p <;> cases l <;>
      simp [filterClause, filterLines, conditionsOf, filterCount, List.intersperse]

end X5gon
